import Mathlib

/-!
Sentinel container routes: a shallow embedding of `pkg/api/controller/container.go`

The development follows `setupContainerRoutes`: the four handlers registered there, the
sanitising of the `:containerId` path segment, the boundary validation done with
`time.Parse`, the composition of the history queries, the decoding of memory rows, the
display name of a live container and the disk counters.

Go strings are byte sequences; `len`, indexing and slicing count bytes.  A Go `string` is
therefore a list of bytes here, each byte a natural number.  Texts that the handlers only
build by concatenating constants (query text, error messages) are Lean strings.
-/

namespace Sentinel

/-- Go `string`: a sequence of bytes. -/
abbrev GoString := List Nat

/-- Bytes of an ASCII literal. -/
def ascii (s : String) : GoString := s.toList.map Char.toNat

/-! ## Identifier sanitizer (`container.go` lines 19, 116-117, 185-186) -/

/-- Membership in the character class `a-zA-Z0-9_.-` that `containerIdRegex` negates. -/
def inIdClass (b : Nat) : Bool :=
  (97 ≤ b && b ≤ 122) || (65 ≤ b && b ≤ 90) || (48 ≤ b && b ≤ 57) ||
    b == 95 || b == 46 || b == 45

/-- Go `strings.ReplaceAll(s, old, new)` for a one-byte `old`: every occurrence of the byte
is replaced by `new`. -/
def stringsReplaceAll (s : GoString) (old : Nat) (new : GoString) : GoString :=
  s.flatMap (fun b => if b = old then new else [b])

/-- Go `containerIdRegex.ReplaceAllString(src, repl)` for the pattern `[^a-zA-Z0-9_.-]+`:
scanning left to right, each maximal non-empty run of bytes outside the class is one match
and is replaced by `repl` (which holds no `$`, so no expansion takes place).  The flag tells
whether the scan is inside a run whose replacement has already been emitted.  The regexp
engine reads runes; every byte of a multi-byte or invalid sequence is at least 0x80, hence
outside the class, so runs of runes outside the class are runs of bytes outside it. -/
def regexReplaceAllString (repl : GoString) : Bool → GoString → GoString
  | _, [] => []
  | inRun, b :: rest =>
    if inIdClass b then b :: regexReplaceAllString repl false rest
    else (if inRun then [] else repl) ++ regexReplaceAllString repl true rest

/-- Lines 116-117: `containerID := strings.ReplaceAll(param, "/", "")` followed by
`containerID = containerIdRegex.ReplaceAllString(containerID, "")`. -/
def sanitizeContainerID (param : GoString) : GoString :=
  regexReplaceAllString [] false (stringsReplaceAll param 47 [])

/-! ## `time.Parse` with the layout `2006-01-02T15:04:05Z` (lines 128-140, 146, 151)

`nextStdChunk` cuts the constant layout into the chunks
`2006` (stdLongYear), `-` `01` (stdZeroMonth), `-` `02` (stdZeroDay), `T` `15` (stdHour),
`:` `04` (stdZeroMinute), `:` `05` (stdZeroSecond), and the literal tail `Z` (a lone `Z` is
no zone chunk).  `timeParse` below is the loop of `time.parse` run on these chunks. -/

/-- Civil fields of a Go `time.Time`. -/
structure GoTime where
  year : Int
  month : Nat
  day : Nat
  hour : Nat
  min : Nat
  sec : Nat
  nsec : Nat
deriving DecidableEq, Repr

def isDigitByte (b : Nat) : Bool := 48 ≤ b && b ≤ 57

/-- Go `isDigit(s, i)`: false when `len(s) <= i`. -/
def isDigit (s : GoString) (i : Nat) : Bool :=
  match s.get? i with
  | some c => isDigitByte c
  | none => false

/-- Go `commaOrPeriod`. -/
def commaOrPeriod (b : Nat) : Bool := b == 46 || b == 44

/-- Go `skip(value, pre)` for a literal `pre` without spaces (the literals of this layout are
`-`, `T`, `:` and `Z`): the value must start with `pre`, which is removed. -/
def skip : GoString → GoString → Option GoString
  | value, [] => some value
  | [], _ :: _ => none
  | v :: value, p :: pre => if v ≠ p then none else skip value pre

/-- Go `getnum(s, fixed)`: one or two leading digits; with `fixed` exactly two. -/
def getnum (s : GoString) (fixed : Bool) : Option (Nat × GoString) :=
  if !isDigit s 0 then none
  else if !isDigit s 1 then
    if fixed then none else some (s.getD 0 0 - 48, s.drop 1)
  else some ((s.getD 0 0 - 48) * 10 + (s.getD 1 0 - 48), s.drop 2)

/-- Go `leadingInt`: value of the leading digits and the remainder; `none` on overflow. -/
def leadingInt : Nat → GoString → Option (Nat × GoString)
  | x, [] => some (x, [])
  | x, c :: rest =>
    if c < 48 ∨ c > 57 then some (x, c :: rest)
    else if x > 2 ^ 63 / 10 then none
    else if x * 10 + c - 48 > 2 ^ 63 then none
    else leadingInt (x * 10 + c - 48) rest

/-- Go `time.atoi`: optional sign, then digits only. -/
def atoi (s : GoString) : Option Int :=
  let signed : Bool := 0 < s.length && (s.getD 0 0 == 45 || s.getD 0 0 == 43)
  let neg : Bool := signed && s.getD 0 0 == 45
  let digits : GoString := if signed then s.drop 1 else s
  match leadingInt 0 digits with
  | some (q, []) => some (if neg then -(q : Int) else (q : Int))
  | _ => none

/-- Go `parseNanoseconds(value, nbytes)`: `value[0]` is the separator and
`value[1:nbytes]` the digits, of which nine at most are read. -/
def parseNanoseconds (value : GoString) (nbytes : Nat) : Option Nat :=
  if !commaOrPeriod (value.getD 0 0) then none
  else
    let nb := if nbytes > 10 then 10 else nbytes
    let v := if nbytes > 10 then value.take 10 else value
    match atoi ((v.take nb).drop 1) with
    | none => none
    | some ns => if ns < 0 then none else some (ns.toNat * 10 ^ (10 - nb))

def isLeap (year : Int) : Bool :=
  year % 4 == 0 && (year % 100 != 0 || year % 400 == 0)

/-- Go `daysIn(m, year)`. -/
def daysIn (month : Nat) (year : Int) : Nat :=
  if month = 2 ∧ isLeap year then 29
  else [31, 28, 31, 30, 31, 30, 31, 31, 30, 31, 30, 31].getD (month - 1) 0

/-- Chunk `2006`: four bytes, the first a digit, read by `atoi`. -/
def parseLongYear (value : GoString) : Option (Int × GoString) :=
  if value.length < 4 ∨ !isDigit value 0 then none
  else match atoi (value.take 4) with
    | none => none
    | some y => some (y, value.drop 4)

/-- Tail of the `stdZeroSecond` case: a fractional second in the input that the layout does
not announce is read all the same (a comma or period and the longest series of digits). -/
def parseFraction (value : GoString) : Option (Nat × GoString) :=
  if value.length ≥ 2 ∧ commaOrPeriod (value.getD 0 0) ∧ isDigit value 1 then
    let n := 2 + ((value.drop 2).takeWhile isDigitByte).length
    match parseNanoseconds value n with
    | none => none
    | some nsec => some (nsec, value.drop n)
  else some (0, value)

/-- Go `time.Parse("2006-01-02T15:04:05Z", value)`; `none` stands for a returned error.
The chunks are read in the order of the layout, each after its literal; a value out of
range or a missing digit ends the parse with an error, as does text after the `Z`; the day
is checked against the month at the end. -/
def timeParse (value : GoString) : Option GoTime :=
  match parseLongYear value with
  | none => none
  | some (year, v1) =>
  match skip v1 [45] with
  | none => none
  | some v2 =>
  match getnum v2 true with
  | none => none
  | some (month, v3) =>
  if month = 0 ∨ 12 < month then none else
  match skip v3 [45] with
  | none => none
  | some v4 =>
  match getnum v4 true with
  | none => none
  | some (day, v5) =>
  match skip v5 [84] with
  | none => none
  | some v6 =>
  match getnum v6 false with
  | none => none
  | some (hour, v7) =>
  if 24 ≤ hour then none else
  match skip v7 [58] with
  | none => none
  | some v8 =>
  match getnum v8 true with
  | none => none
  | some (min, v9) =>
  if 60 ≤ min then none else
  match skip v9 [58] with
  | none => none
  | some v10 =>
  match getnum v10 true with
  | none => none
  | some (sec, v11) =>
  if 60 ≤ sec then none else
  match parseFraction v11 with
  | none => none
  | some (nsec, v12) =>
  match skip v12 [90] with
  | none => none
  | some v13 =>
  if v13 ≠ [] then none
  else if day < 1 ∨ day > daysIn month year then none
  else some { year := year, month := month, day := day, hour := hour, min := min,
              sec := sec, nsec := nsec }

/-- The zero `time.Time` (January 1, year 1, 00:00:00 UTC), left in the result variable when
`time.Parse` returns an error. -/
def zeroTime : GoTime :=
  { year := 1, month := 1, day := 1, hour := 0, min := 0, sec := 0, nsec := 0 }

/-- Days from January 1 of year 1 to the given civil date (proleptic Gregorian). -/
def daysSinceYearOne (year : Int) (month day : Nat) : Int :=
  let y := year - 1
  let beforeMonth : Nat :=
    [0, 31, 59, 90, 120, 151, 181, 212, 243, 273, 304, 334].getD (month - 1) 0
  365 * y + y / 4 - y / 100 + y / 400 + beforeMonth
    + (if month > 2 ∧ isLeap year then 1 else 0) + ((day : Int) - 1)

/-- Go `t.UnixMilli()` of a UTC time. -/
def unixMilli (t : GoTime) : Int :=
  ((daysSinceYearOne t.year t.month t.day - 719162) * 86400
      + (t.hour * 3600 + t.min * 60 + t.sec : Nat)) * 1000 + ((t.nsec / 1000000 : Nat) : Int)

/-- Go `appendInt(b, x, width)`: sign, zero padding to `width`, decimal digits. -/
def appendInt (x : Int) (width : Nat) : GoString :=
  let digits := (Nat.toDigits 10 x.natAbs).map Char.toNat
  (if x < 0 then [45] else []) ++ List.replicate (width - digits.length) 48 ++ digits

/-- Go `t.Format("2006-01-02T15:04:05Z")`. -/
def formatLayout (t : GoTime) : GoString :=
  appendInt t.year 4 ++ [45] ++ appendInt t.month 2 ++ [45] ++ appendInt t.day 2 ++ [84]
    ++ appendInt t.hour 2 ++ [58] ++ appendInt t.min 2 ++ [58] ++ appendInt t.sec 2 ++ [90]

/-! ## `strconv` (lines 176, 262-267) -/

/-- The two causes carried by a `*strconv.NumError` for a valid base and bit size. -/
inductive NumError
  | errSyntax
  | errRange
deriving DecidableEq, Repr

def maxUint64 : Nat := 2 ^ 64 - 1

/-- Digit value of a byte in `ParseUint`: decimal digits, then letters through
`lower(c) = c | 0x20`; `none` is the `default` case of the switch. -/
def digitValue (c : Nat) : Option Nat :=
  if 48 ≤ c ∧ c ≤ 57 then some (c - 48)
  else if 97 ≤ (c ||| 32) ∧ (c ||| 32) ≤ 122 then some ((c ||| 32) - 97 + 10)
  else none

/-- Loop of Go `strconv.ParseUint(s, 10, 64)`, with `cutoff = maxUint64/10 + 1` and
`maxVal = 1<<64 - 1`.  The pair is the returned value and error. -/
def parseUintLoop : Nat → GoString → Nat × Option NumError
  | n, [] => (n, none)
  | n, c :: rest =>
    match digitValue c with
    | none => (0, some NumError.errSyntax)
    | some d =>
      if d ≥ 10 then (0, some NumError.errSyntax)
      else if n ≥ maxUint64 / 10 + 1 then (maxUint64, some NumError.errRange)
      else
        let n1 := (n * 10 % 2 ^ 64 + d) % 2 ^ 64
        if n1 < n * 10 % 2 ^ 64 ∨ n1 > maxUint64 then (maxUint64, some NumError.errRange)
        else parseUintLoop n1 rest

/-- Go `strconv.ParseUint(s, 10, 64)`: the returned value and error. -/
def parseUint (s : GoString) : Nat × Option NumError :=
  if s = [] then (0, some NumError.errSyntax) else parseUintLoop 0 s

/-- Go `strconv.ParseInt(s, 10, 64)`: the returned value and error. -/
def parseInt (s : GoString) : Int × Option NumError :=
  match s with
  | [] => (0, some NumError.errSyntax)
  | c :: rest =>
    let neg : Bool := c == 45
    let body : GoString := if c == 43 ∨ c == 45 then rest else s
    match parseUint body with
    | (_, some NumError.errSyntax) => (0, some NumError.errSyntax)
    | (un, _) =>
      if !neg ∧ un ≥ 2 ^ 63 then ((2 ^ 63 - 1 : Int), some NumError.errRange)
      else if neg ∧ un > 2 ^ 63 then (-(2 ^ 63 : Int), some NumError.errRange)
      else (if neg then -(un : Int) else (un : Int), none)

/-! ## `float64`

Values of a `float64` that the handlers can produce: not-a-number, the infinities and the
finite values.  The rounding of an exact quotient or product to the nearest `float64` is a
parameter `rnd` of the operations; the sign of a zero is not tracked (the operands of the
disk handler are conversions of unsigned integers). -/

inductive F64
  | nan
  | posInf
  | negInf
  | fin (q : ℚ)
deriving DecidableEq

/-- Go `float64(u)` for a `uint64`. -/
def F64.ofUint64 (rnd : ℚ → ℚ) (u : Nat) : F64 := F64.fin (rnd u)

/-- Go `x / y` on `float64`: division by zero does not trap; `0/0` is NaN and a non-zero
value over zero is an infinity. -/
def F64.div (rnd : ℚ → ℚ) : F64 → F64 → F64
  | F64.fin a, F64.fin b =>
    if b = 0 then (if a = 0 then F64.nan else if 0 < a then F64.posInf else F64.negInf)
    else F64.fin (rnd (a / b))
  | F64.nan, _ => F64.nan
  | _, F64.nan => F64.nan
  | F64.fin _, _ => F64.fin 0
  | F64.posInf, F64.fin b => if 0 ≤ b then F64.posInf else F64.negInf
  | F64.negInf, F64.fin b => if 0 ≤ b then F64.negInf else F64.posInf
  | _, _ => F64.nan

/-- Go `x * y` on `float64`. -/
def F64.mul (rnd : ℚ → ℚ) : F64 → F64 → F64
  | F64.fin a, F64.fin b => F64.fin (rnd (a * b))
  | F64.nan, _ => F64.nan
  | _, F64.nan => F64.nan
  | F64.posInf, F64.fin b => if b = 0 then F64.nan else if 0 < b then F64.posInf else F64.negInf
  | F64.negInf, F64.fin b => if b = 0 then F64.nan else if 0 < b then F64.negInf else F64.posInf
  | F64.fin a, F64.posInf => if a = 0 then F64.nan else if 0 < a then F64.posInf else F64.negInf
  | F64.fin a, F64.negInf => if a = 0 then F64.nan else if 0 < a then F64.negInf else F64.posInf
  | F64.posInf, F64.posInf => F64.posInf
  | F64.negInf, F64.negInf => F64.posInf
  | _, _ => F64.negInf

/-- The results of Go `strconv.ParseFloat(s, 64)`, as its documentation gives them: the
nearest `float64` without error; 0 with a syntax error; an infinity with a range error. -/
inductive FloatParse
  | ok (value : F64)
  | errSyntax
  | errRange (negative : Bool)
deriving DecidableEq

/-- The value returned by `strconv.ParseFloat`. -/
def FloatParse.value : FloatParse → F64
  | FloatParse.ok v => v
  | FloatParse.errSyntax => F64.fin 0
  | FloatParse.errRange negative => if negative then F64.negInf else F64.posInf

/-- The error returned by `strconv.ParseFloat`. -/
def FloatParse.err : FloatParse → Option NumError
  | FloatParse.ok _ => none
  | FloatParse.errSyntax => some NumError.errSyntax
  | FloatParse.errRange _ => some NumError.errRange

/-! ## Collaborators and results -/

/-- Fields of `config.Config` read by the handlers. -/
structure Config where
  Token : GoString
  Debug : Bool

/-- Fields of `dockerTypes.Container` read by the list handler. -/
structure DockerContainer where
  ID : GoString
  Names : List GoString
  Image : GoString
  State : GoString
  Labels : List (GoString × GoString)
deriving DecidableEq

/-- `inspectData.State.Health`. -/
structure HealthData where
  Status : GoString
deriving DecidableEq

/-- `inspectData.State`, whose `Health` pointer may be nil. -/
structure ContainerStateData where
  Health : Option HealthData
deriving DecidableEq

/-- `dockerTypes.ContainerJSONBase`, whose `State` pointer may be nil. -/
structure ContainerJSONBase where
  State : Option ContainerStateData
deriving DecidableEq

/-- `dockerTypes.ContainerJSON`: it embeds the pointer `*ContainerJSONBase`, which
`json.Unmarshal` leaves nil when the body holds none of the keys of the base. -/
structure ContainerJSON where
  Base : Option ContainerJSONBase
deriving DecidableEq

/-- Outcome of `MakeRequest` + `io.ReadAll` + `json.Unmarshal` for the list call. -/
inductive ListOutcome
  | requestError (err : String)
  | readError (err : String)
  | unmarshalError (err : String)
  | ok (containers : List DockerContainer)
deriving DecidableEq

/-- Outcome of `MakeRequest` + `io.ReadAll` + `json.Unmarshal` for one inspect call. -/
inductive InspectOutcome
  | requestError (err : String)
  | readError (err : String)
  | unmarshalError (err : String)
  | ok (data : ContainerJSON)
deriving DecidableEq

/-- `syscall.Statfs_t` fields read by the disk handler (`Bsize` is an `int64` on Linux). -/
structure Statfs where
  Blocks : Nat
  Bfree : Nat
  Bsize : Int

/-- One bound parameter of a query: the identifier or a millisecond boundary. -/
inductive Param
  | text (s : GoString)
  | int64 (v : Int)
deriving DecidableEq, Repr

/-- What `c.database.Query` gives back: an error, or rows of which each one either scans
into the text columns listed or makes `rows.Scan` fail. -/
abbrev QueryOutcome := Except String (List (Except String (List GoString)))

/-- Everything outside the handler that a request reads. -/
structure World where
  /-- Result of the list call `/containers/json?all=true`. -/
  listContainers : ListOutcome
  /-- Result of the i-th inspect call (counted from 0) made on the given path. -/
  inspect : Nat → GoString → InspectOutcome
  /-- Local civil time read by the i-th `time.Now()` of the list handler. -/
  nowLocal : Nat → GoTime
  /-- Civil time of `time.Now().UTC()`. -/
  nowUTC : GoTime
  /-- Result of `syscall.Statfs("/", &fs)`. -/
  statfs : Except String Statfs
  /-- Result of `c.database.Query(query, params...)`. -/
  query : String → List Param → QueryOutcome
  /-- Whether `gin.Mode() == gin.DebugMode`. -/
  ginDebugMode : Bool
  /-- Go `strconv.ParseFloat(s, 64)`: which of its three results a text gets. -/
  parseFloat : GoString → FloatParse
  /-- Local civil time of `time.UnixMilli(ms)`. -/
  localCivil : Int → GoTime
  /-- Rounding of an exact value to the nearest `float64`. -/
  rnd : ℚ → ℚ

/-- Calls a handler makes on its collaborators, in the order made. -/
inductive Effect
  | dockerRequest (path : GoString)
  | databaseQuery (query : String) (params : List Param)
  | statfsCall
  | logPrintf (format : String)
deriving DecidableEq

/-- `types.Container`, the snapshot serialised by the list handler. -/
structure Container where
  Time : GoString
  ID : GoString
  Image : GoString
  Name : GoString
  State : GoString
  Labels : List (GoString × GoString)
  HealthStatus : GoString
deriving DecidableEq

/-- `CpuUsage` (declared elsewhere in the package): `Percent` holds the scanned column. -/
structure CpuUsage where
  Time : GoString
  Percent : GoString
  HumanFriendlyTime : GoString
deriving DecidableEq

/-- `MemUsage` (declared elsewhere in the package). -/
structure MemUsage where
  Time : GoString
  Total : Nat
  Available : Nat
  Used : Nat
  UsedPercent : F64
  Free : Nat
  HumanFriendlyTime : GoString
deriving DecidableEq

/-- Value handed to `ctx.JSON`. -/
inductive Body
  | error (msg : String)
  | containers (cs : List Container)
  | disk (total used free : Nat) (usedPercent : F64)
  | cpuUsages (us : List CpuUsage)
  | memUsages (us : List MemUsage)
deriving DecidableEq

/-- How a handler invocation ends: a response with the status and the JSON text of the
body, a response with the status and no body (the encoder refused the value), or a run-time
panic. -/
inductive Outcome
  | json (status : Nat) (body : Body)
  | emptyBody (status : Nat)
  | panic (msg : String)
deriving DecidableEq

/-- Whether the JSON encoder accepts a `float64`: it refuses NaN and the infinities
(`json: unsupported value`). -/
def F64.encodable : F64 → Bool
  | F64.fin _ => true
  | _ => false

/-- Whether the JSON encoder accepts the value handed to `ctx.JSON`. -/
def Body.encodable : Body → Bool
  | Body.disk _ _ _ usedPercent => usedPercent.encodable
  | Body.memUsages us => us.all (fun u => u.UsedPercent.encodable)
  | _ => true

/-- Gin `ctx.JSON(status, body)`: the status is set and the body encoded; when the encoder
returns an error nothing is written after the status. -/
def ctxJSON (status : Nat) (body : Body) : Outcome :=
  if body.encodable then Outcome.json status body else Outcome.emptyBody status

/-- A handler invocation: its outcome and the calls it made. -/
structure Run where
  outcome : Outcome
  effects : List Effect
deriving DecidableEq

/-- What the handlers read from `ctx`: `GetHeader` and `Query` give the empty string for a
header or parameter that is absent. -/
structure Request where
  Authorization : GoString
  containerId : GoString
  queryFrom : GoString
  queryTo : GoString

/-! ## `GET /api/containers` (lines 23-87) -/

/-- Go `s[lo:]`; `none` is the panic when `lo > len(s)`. -/
def sliceFrom (s : GoString) (lo : Nat) : Option GoString :=
  if lo ≤ s.length then some (s.drop lo) else none

/-- Go `s[:hi]`; `none` is the panic when `hi > len(s)`. -/
def sliceTo (s : GoString) (hi : Nat) : Option GoString :=
  if hi ≤ s.length then some (s.take hi) else none

/-- Lines 51-58: the display name; `none` is a slice-bounds panic. -/
def displayName (container : DockerContainer) : Option GoString :=
  if 0 < container.Names.length && 1 < (container.Names.getD 0 []).length then
    (container.Names.get? 0).bind (fun first => sliceFrom first 1)
  else if 0 < container.Names.length then container.Names.get? 0
  else sliceTo container.ID 12

/-- Lines 61-74: the health status read from one inspect call.  After a successful
`json.Unmarshal`, `inspectData.State` is read through the embedded base pointer: `none` is
the nil-pointer panic of that read when the pointer is nil. -/
def healthStatus : InspectOutcome → Option GoString
  | InspectOutcome.ok data =>
    match data.Base with
    | none => none
    | some base =>
      match base.State with
      | some st =>
        match st.Health with
        | some h => some h.Status
        | none => some (ascii "unknown")
      | none => some (ascii "unknown")
  | _ => some (ascii "unknown")

/-- Path of the inspect call, `fmt.Sprintf("/containers/%s/json", container.ID)`. -/
def inspectPath (id : GoString) : GoString := ascii "/containers/" ++ id ++ ascii "/json"

/-- Lines 50-85: the loop over the listed containers; `i` counts the containers done. -/
def containersLoop (w : World) :
    Nat → List DockerContainer → List Container → List Effect → Run
  | _, [], result, effects => ⟨ctxJSON 200 (Body.containers result), effects⟩
  | i, container :: rest, result, effects =>
    match displayName container with
    | none => ⟨Outcome.panic "runtime error: slice bounds out of range", effects⟩
    | some name =>
      match healthStatus (w.inspect i (inspectPath container.ID)) with
      | none =>
        ⟨Outcome.panic "runtime error: invalid memory address or nil pointer dereference",
          effects ++ [Effect.dockerRequest (inspectPath container.ID)]⟩
      | some health =>
        containersLoop w (i + 1) rest
          (result ++ [{ Time := formatLayout (w.nowLocal i)
                        ID := container.ID
                        Image := container.Image
                        Name := name
                        State := container.State
                        Labels := container.Labels
                        HealthStatus := health }])
          (effects ++ [Effect.dockerRequest (inspectPath container.ID)])

def listPath : GoString := ascii "/containers/json?all=true"

/-- Handler of `GET /api/containers`. -/
def containersHandler (c : Config) (w : World) (req : Request) : Run :=
  if req.Authorization ≠ ascii "Bearer " ++ c.Token then
    ⟨ctxJSON 401 (Body.error "Unauthorized"), []⟩
  else
    match w.listContainers with
    | ListOutcome.requestError err =>
      ⟨ctxJSON 500 (Body.error ("docker api error: " ++ err)),
        [Effect.dockerRequest listPath]⟩
    | ListOutcome.readError err =>
      ⟨ctxJSON 500 (Body.error ("read error: " ++ err)), [Effect.dockerRequest listPath]⟩
    | ListOutcome.unmarshalError err =>
      ⟨ctxJSON 500 (Body.error ("unmarshal error: " ++ err)),
        [Effect.dockerRequest listPath]⟩
    | ListOutcome.ok containers =>
      containersLoop w 0 containers [] [Effect.dockerRequest listPath]

/-! ## `GET /api/disk` (lines 90-114) -/

/-- Go conversion `uint64(x)` of an `int64`. -/
def toUint64 (x : Int) : Nat := (x % 2 ^ 64).toNat

/-- Lines 103-106: the four reported values `(total, used, free, pct)`. -/
def diskUsage (rnd : ℚ → ℚ) (fs : Statfs) : Nat × Nat × Nat × F64 :=
  let total := fs.Blocks * toUint64 fs.Bsize % 2 ^ 64
  let free := fs.Bfree * toUint64 fs.Bsize % 2 ^ 64
  let used := (total + 2 ^ 64 - free) % 2 ^ 64
  let pct := F64.mul rnd (F64.div rnd (F64.ofUint64 rnd used) (F64.ofUint64 rnd total))
    (F64.fin 100)
  (total, used, free, pct)

/-- Handler of `GET /api/disk`. -/
def diskHandler (c : Config) (w : World) (req : Request) : Run :=
  if req.Authorization ≠ ascii "Bearer " ++ c.Token then
    ⟨ctxJSON 401 (Body.error "Unauthorized"), []⟩
  else
    match w.statfs with
    | Except.error err =>
      ⟨ctxJSON 500 (Body.error ("statfs error: " ++ err)), [Effect.statfsCall]⟩
    | Except.ok fs =>
      let r := diskUsage w.rnd fs
      ⟨ctxJSON 200 (Body.disk r.1 r.2.1 r.2.2.1 r.2.2.2), [Effect.statfsCall]⟩

/-! ## History handlers (lines 115-277) -/

/-- The value left in `fromTime` / `toTime` by `t, _ := time.Parse(layout, s)`. -/
def parsedOrZero (s : GoString) : GoTime := (timeParse s).getD zeroTime

/-- Lines 142-160 and 215-233: the query text and its parameters, composed from the query
`base` (which ends in `WHERE container_id = ?`), the identifier and the two boundary
strings. -/
def composeQuery (base : String) (containerID fromS toS : GoString) : String × List Param :=
  let query := base
  let params := [Param.text containerID]
  let (query, params) :=
    if fromS ≠ [] then
      (query ++ " AND CAST(time AS BIGINT) >= ?",
        params ++ [Param.int64 (unixMilli (parsedOrZero fromS))])
    else (query, params)
  let (query, params) :=
    if toS ≠ [] then
      ((if fromS ≠ [] then query ++ " AND" else query ++ " WHERE")
          ++ " CAST(time AS BIGINT) <= ?",
        params ++ [Param.int64 (unixMilli (parsedOrZero toS))])
    else (query, params)
  (query ++ " ORDER BY CAST(time AS BIGINT) ASC", params)

def cpuQueryBase : String :=
  "SELECT time, container_id, percent FROM container_cpu_usage WHERE container_id = ?"

def memQueryBase : String :=
  "SELECT time, container_id, total, available, used, usedPercent, free FROM container_memory_usage WHERE container_id = ?"

/-- Lines 142-160: query composition of the CPU history handler. -/
def cpuQuery (containerID fromS toS : GoString) : String × List Param :=
  composeQuery cpuQueryBase containerID fromS toS

/-- Lines 215-233: query composition of the memory history handler. -/
def memQuery (containerID fromS toS : GoString) : String × List Param :=
  composeQuery memQueryBase containerID fromS toS

/-- Lines 118-125 and 187-194: the boundaries after defaulting. -/
def effectiveFrom (req : Request) : GoString :=
  if req.queryFrom = [] then ascii "1970-01-01T00:00:01Z" else req.queryFrom

def effectiveTo (w : World) (req : Request) : GoString :=
  if req.queryTo = [] then formatLayout w.nowUTC else req.queryTo

def invalidFromMsg : String := "Invalid \x27from\x27 date format. Use YYYY-MM-DDTHH:MM:SSZ"

def invalidToMsg : String := "Invalid \x27to\x27 date format. Use YYYY-MM-DDTHH:MM:SSZ"

/-- Lines 127-140 and 200-213: the 400 body of the first boundary that fails `time.Parse`,
`from` before `to`; `none` when both pass. -/
def validateWindow (fromS toS : GoString) : Option String :=
  if fromS ≠ [] ∧ (timeParse fromS).isNone then some invalidFromMsg
  else if toS ≠ [] ∧ (timeParse toS).isNone then some invalidToMsg
  else none

/-- Lines 178 and 269: `HumanFriendlyTime`, filled in gin debug mode only. -/
def humanFriendlyTime (w : World) (time : GoString) : GoString :=
  if w.ginDebugMode then formatLayout (w.localCivil (parseInt time).1) else []

def scanArityError (columns wanted : Nat) : String :=
  "sql: expected " ++ toString columns ++ " destination arguments in Scan, not "
    ++ toString wanted

/-- Lines 169-181: the row loop of the CPU handler; a failed `rows.Scan` ends it. -/
def cpuRows (w : World) :
    List (Except String (List GoString)) → List CpuUsage → Except String (List CpuUsage)
  | [], usages => Except.ok usages
  | Except.error err :: _, _ => Except.error err
  | Except.ok [time, _, percent] :: rest, usages =>
    cpuRows w rest
      (usages ++ [{ Time := time, Percent := percent,
                    HumanFriendlyTime := humanFriendlyTime w time }])
  | Except.ok columns :: _, _ => Except.error (scanArityError columns.length 3)

/-- Handler of `GET /api/container/:containerId/cpu/history`. -/
def cpuHistoryHandler (_c : Config) (w : World) (req : Request) : Run :=
  let containerID := sanitizeContainerID req.containerId
  let fromS := effectiveFrom req
  let toS := effectiveTo w req
  match validateWindow fromS toS with
  | some msg => ⟨ctxJSON 400 (Body.error msg), []⟩
  | none =>
    let q := cpuQuery containerID fromS toS
    match w.query q.1 q.2 with
    | Except.error err =>
      ⟨ctxJSON 500 (Body.error err), [Effect.databaseQuery q.1 q.2]⟩
    | Except.ok rows =>
      match cpuRows w rows [] with
      | Except.error err =>
        ⟨ctxJSON 500 (Body.error err), [Effect.databaseQuery q.1 q.2]⟩
      | Except.ok usages =>
        ⟨ctxJSON 200 (Body.cpuUsages usages), [Effect.databaseQuery q.1 q.2]⟩

/-- Lines 262-270: decoding of the text columns of one memory row; the error of each
`strconv` call is discarded and the returned value stored. -/
def decodeMemRow (w : World) (time total available used usedPercent free : GoString) :
    MemUsage :=
  { Time := time
    Total := (parseUint total).1
    Available := (parseUint available).1
    Used := (parseUint used).1
    UsedPercent := (w.parseFloat usedPercent).value
    Free := (parseUint free).1
    HumanFriendlyTime := humanFriendlyTime w time }

def debugLog (c : Config) (format : String) : List Effect :=
  if c.Debug then [Effect.logPrintf format] else []

/-- Lines 248-272: the row loop of the memory handler.  The result is the scan error or the
decoded rows, with the log calls made. -/
def memRows (c : Config) (w : World) :
    List (Except String (List GoString)) → List MemUsage → List Effect →
      Except String (List MemUsage) × List Effect
  | [], usages, effects => (Except.ok usages, effects)
  | Except.error err :: _, _, effects =>
    (Except.error err, effects ++ [Effect.logPrintf "[ERROR] Container scan failed: %v"])
  | Except.ok [time, _, total, available, used, usedPercent, free] :: rest, usages, effects =>
    memRows c w rest (usages ++ [decodeMemRow w time total available used usedPercent free])
      (effects ++ debugLog c "[DEBUG] Container row %d")
  | Except.ok columns :: _, _, effects =>
    (Except.error (scanArityError columns.length 7),
      effects ++ [Effect.logPrintf "[ERROR] Container scan failed: %v"])

/-- Handler of `GET /api/container/:containerId/memory/history`. -/
def memoryHistoryHandler (c : Config) (w : World) (req : Request) : Run :=
  let containerID := sanitizeContainerID req.containerId
  let fromS := effectiveFrom req
  let toS := effectiveTo w req
  let log1 := debugLog c "[DEBUG] Container memory history request"
  match validateWindow fromS toS with
  | some msg => ⟨ctxJSON 400 (Body.error msg), log1⟩
  | none =>
    let q := memQuery containerID fromS toS
    let log2 := log1 ++ debugLog c "[DEBUG] Container memory query"
      ++ [Effect.databaseQuery q.1 q.2]
    match w.query q.1 q.2 with
    | Except.error err => ⟨ctxJSON 500 (Body.error err), log2⟩
    | Except.ok rows =>
      match memRows c w rows [] log2 with
      | (Except.error err, effects) => ⟨ctxJSON 500 (Body.error err), effects⟩
      | (Except.ok usages, effects) =>
        ⟨ctxJSON 200 (Body.memUsages usages),
          effects ++ debugLog c "[DEBUG] Returning %d container memory records"⟩

/-! ## Vocabulary of the statements -/

/-- Number of positions of `text` at which `needle` starts. -/
def countOccurrences (needle : List Char) : List Char → Nat
  | [] => 0
  | c :: rest =>
    (if needle.isPrefixOf (c :: rest) then 1 else 0) + countOccurrences needle rest

/-- Number of `WHERE` keywords in a query text. -/
def whereCount (query : String) : Nat := countOccurrences "WHERE".toList query.toList

/-- Number of `?` placeholders in a query text. -/
def placeholderCount (query : String) : Nat := countOccurrences "?".toList query.toList

/-- Whether a run called the database. -/
def queriesDatabase (r : Run) : Bool :=
  r.effects.any (fun e => match e with
    | Effect.databaseQuery _ _ => true
    | _ => false)

/-- Whether a run called the container runtime. -/
def callsRuntime (r : Run) : Bool :=
  r.effects.any (fun e => match e with
    | Effect.dockerRequest _ => true
    | _ => false)

/-- Decimal value of a sequence of digits read after the value `n`. -/
def decimalFrom (n : Nat) (ds : GoString) : Nat :=
  ds.foldl (fun acc b => acc * 10 + (b - 48)) n

/-- Decimal value of a sequence of digits. -/
def decimalValue (ds : GoString) : Nat := decimalFrom 0 ds

/-- Nanoseconds of a fractional second `frac` (its separator and digits): the first nine
digits, scaled; 0 without a fraction. -/
def fractionNanos : GoString → Nat
  | [] => 0
  | _ :: ds => decimalValue (ds.take 9) * 10 ^ (9 - (ds.take 9).length)

/-- The text columns of one stored memory row. -/
structure MemColumns where
  time : GoString
  containerID : GoString
  total : GoString
  available : GoString
  used : GoString
  usedPercent : GoString
  free : GoString

/-- A row that `rows.Scan` reads into its seven destinations. -/
def MemColumns.scanned (r : MemColumns) : Except String (List GoString) :=
  Except.ok [r.time, r.containerID, r.total, r.available, r.used, r.usedPercent, r.free]

/-- The record decoded from the columns of a row. -/
def MemColumns.decode (w : World) (r : MemColumns) : MemUsage :=
  decodeMemRow w r.time r.total r.available r.used r.usedPercent r.free

/-- The snapshot of the i-th listed container. -/
def snapshotAt (w : World) (i : Nat) (container : DockerContainer) (name : GoString) :
    Container :=
  { Time := formatLayout (w.nowLocal i)
    ID := container.ID
    Image := container.Image
    Name := name
    State := container.State
    Labels := container.Labels
    HealthStatus := (healthStatus (w.inspect i (inspectPath container.ID))).getD [] }

/-- A quiet host used to run the handlers on concrete requests: no container, an empty
store, a root filesystem of 1000 blocks of 4096 bytes with 250 free, exact arithmetic. -/
def sampleWorld : World :=
  { listContainers := ListOutcome.ok []
    inspect := fun _ _ => InspectOutcome.ok ⟨some ⟨none⟩⟩
    nowLocal := fun _ => ⟨2024, 1, 2, 3, 4, 5, 0⟩
    nowUTC := ⟨2024, 1, 2, 3, 4, 5, 0⟩
    statfs := Except.ok ⟨1000, 250, 4096⟩
    query := fun _ _ => Except.ok []
    ginDebugMode := false
    parseFloat := fun _ => FloatParse.errSyntax
    localCivil := fun _ => zeroTime
    rnd := id }

def sampleConfig : Config := { Token := ascii "secret", Debug := false }

/-- A history request that carries no `Authorization` header and no boundary. -/
def anonymousHistoryRequest : Request :=
  { Authorization := [], containerId := ascii "abc", queryFrom := [], queryTo := [] }

/-- A listed container without names whose identifier has three bytes. -/
def shortIdContainer : DockerContainer :=
  { ID := ascii "abc", Names := [], Image := ascii "img", State := ascii "running",
    Labels := [] }

/-- A listed container named `/web-1`. -/
def webContainer : DockerContainer :=
  { ID := ascii "abcdef0123456789", Names := [ascii "/web-1"], Image := ascii "img",
    State := ascii "running", Labels := [] }

/-- A listed container whose first name has no leading separator. -/
def plainNameContainer : DockerContainer :=
  { ID := ascii "abcdef0123456789", Names := [ascii "web-1"], Image := ascii "img",
    State := ascii "running", Labels := [] }

/-- A listed container without names whose identifier has sixteen bytes. -/
def unnamedContainer : DockerContainer :=
  { ID := ascii "abcdef0123456789", Names := [], Image := ascii "img",
    State := ascii "running", Labels := [] }

/-- A request that carries the bearer token of `sampleConfig`. -/
def authorizedRequest : Request :=
  { Authorization := ascii "Bearer secret", containerId := ascii "abc", queryFrom := [],
    queryTo := [] }

/-- The quiet host, now listing `webContainer` and then `shortIdContainer`. -/
def shortIdWorld : World :=
  { sampleWorld with listContainers := ListOutcome.ok [webContainer, shortIdContainer] }

/-- The quiet host, now listing `webContainer`, whose inspect body decodes without any key
of the base (the body `\x7b\x7d`, or an error body of the daemon). -/
def nilBaseWorld : World :=
  { sampleWorld with
    listContainers := ListOutcome.ok [webContainer]
    inspect := fun _ _ => InspectOutcome.ok ⟨none⟩ }

/-- The quiet host with a root filesystem that reports no blocks. -/
def emptyFsWorld : World :=
  { sampleWorld with statfs := Except.ok ⟨0, 0, 4096⟩ }

/-- The snapshots of the listed containers, the first being the i-th of the loop. -/
def snapshotsFrom (w : World) : Nat → List DockerContainer → List Container
  | _, [] => []
  | i, container :: rest =>
    snapshotAt w i container ((displayName container).getD []) :: snapshotsFrom w (i + 1) rest

/-- A history request whose `from` is `2024-13-50`. -/
def badFromRequest : Request :=
  { Authorization := ascii "Bearer secret", containerId := ascii "abc",
    queryFrom := ascii "2024-13-50", queryTo := [] }

/-- A stored memory row whose `total` exceeds 64 bits and whose `used` is no numeral. -/
def corruptedRow : MemColumns :=
  { time := ascii "1704164645000", containerID := ascii "abc",
    total := ascii "18446744073709551616", available := ascii "2048",
    used := ascii "12x", usedPercent := ascii "50", free := ascii "1024" }

theorem stringsReplaceAll_nil_eq_filter (s : GoString) (old : Nat) :
    stringsReplaceAll s old [] = s.filter (fun b => !decide (b = old)) := by
  induction s with
  | nil => rfl
  | cons b rest ih =>
    have h : stringsReplaceAll (b :: rest) old [] =
        (if b = old then [] else [b]) ++ stringsReplaceAll rest old [] := by
      simp [stringsReplaceAll, List.flatMap_cons]
    rw [h, ih]
    by_cases hb : b = old <;> simp [hb]

theorem regexReplaceAllString_nil_eq_filter (s : GoString) (inRun : Bool) :
    regexReplaceAllString [] inRun s = s.filter inIdClass := by
  induction s generalizing inRun with
  | nil => rfl
  | cons b rest ih =>
    by_cases hb : inIdClass b = true
    · simp [regexReplaceAllString, hb, ih]
    · simp [regexReplaceAllString, hb, ih]

theorem inIdClass_slash : inIdClass 47 = false := by decide

theorem sanitize_eq_filter (param : GoString) :
    sanitizeContainerID param = param.filter inIdClass := by
  unfold sanitizeContainerID
  rw [regexReplaceAllString_nil_eq_filter, stringsReplaceAll_nil_eq_filter, List.filter_filter]
  apply List.filter_congr
  intro b _
  by_cases hb : b = 47
  · subst hb; simp [inIdClass_slash]
  · simp [hb]

theorem inIdClass_iff (b : Nat) :
    inIdClass b = true ↔
      ((97 ≤ b ∧ b ≤ 122) ∨ (65 ≤ b ∧ b ≤ 90) ∨ (48 ≤ b ∧ b ≤ 57) ∨
        b = 95 ∨ b = 46 ∨ b = 45) := by
  simp [inIdClass, or_assoc]

/-- C2: the sanitized identifier is the input with every byte outside `[A-Za-z0-9_.-]`
removed and the others kept in order; it holds no `/` and no byte outside the set, and
`abc/../; DROP TABLE x` becomes `abc..DROPTABLEx`. -/
theorem sanitize_keeps_exactly_allowed (param : GoString) :
    sanitizeContainerID param = param.filter inIdClass ∧
    List.Sublist (sanitizeContainerID param) param ∧
    (∀ b ∈ sanitizeContainerID param,
      b ≠ 47 ∧ ((97 ≤ b ∧ b ≤ 122) ∨ (65 ≤ b ∧ b ≤ 90) ∨ (48 ≤ b ∧ b ≤ 57) ∨
        b = 95 ∨ b = 46 ∨ b = 45)) ∧
    (∀ b ∈ param, ((97 ≤ b ∧ b ≤ 122) ∨ (65 ≤ b ∧ b ≤ 90) ∨ (48 ≤ b ∧ b ≤ 57) ∨
        b = 95 ∨ b = 46 ∨ b = 45) → b ∈ sanitizeContainerID param) ∧
    sanitizeContainerID (ascii "abc/../; DROP TABLE x") = ascii "abc..DROPTABLEx" := by
  refine ⟨sanitize_eq_filter param, ?_, ?_, ?_, by decide⟩
  · rw [sanitize_eq_filter]; exact List.filter_sublist param
  · intro b hb
    rw [sanitize_eq_filter, List.mem_filter] at hb
    refine ⟨?_, (inIdClass_iff b).1 hb.2⟩
    intro h47
    rw [h47, inIdClass_slash] at hb
    exact Bool.noConfusion hb.2
  · intro b hb hcls
    rw [sanitize_eq_filter, List.mem_filter]
    exact ⟨hb, (inIdClass_iff b).2 hcls⟩

/-! ## Bearer check -/

set_option maxRecDepth 100000

theorem containersHandler_unauthorized (c : Config) (w : World) (req : Request)
    (h : req.Authorization ≠ ascii "Bearer " ++ c.Token) :
    containersHandler c w req = ⟨Outcome.json 401 (Body.error "Unauthorized"), []⟩ := by
  unfold containersHandler
  rw [if_pos h]
  rfl

theorem diskHandler_unauthorized (c : Config) (w : World) (req : Request)
    (h : req.Authorization ≠ ascii "Bearer " ++ c.Token) :
    diskHandler c w req = ⟨Outcome.json 401 (Body.error "Unauthorized"), []⟩ := by
  unfold diskHandler
  rw [if_pos h]
  rfl

/-- C1: on a request without `Authorization` header the two history handlers do not answer
401: they run their query on the store and answer 200, whereas the handlers of
`/api/containers` and `/api/disk` answer 401 without any call. -/
theorem history_handlers_run_without_bearer :
    anonymousHistoryRequest.Authorization ≠ ascii "Bearer " ++ sampleConfig.Token ∧
    (cpuHistoryHandler sampleConfig sampleWorld anonymousHistoryRequest).outcome
      = Outcome.json 200 (Body.cpuUsages []) ∧
    queriesDatabase (cpuHistoryHandler sampleConfig sampleWorld anonymousHistoryRequest)
      = true ∧
    (memoryHistoryHandler sampleConfig sampleWorld anonymousHistoryRequest).outcome
      = Outcome.json 200 (Body.memUsages []) ∧
    queriesDatabase (memoryHistoryHandler sampleConfig sampleWorld anonymousHistoryRequest)
      = true ∧
    containersHandler sampleConfig sampleWorld anonymousHistoryRequest
      = ⟨Outcome.json 401 (Body.error "Unauthorized"), []⟩ ∧
    diskHandler sampleConfig sampleWorld anonymousHistoryRequest
      = ⟨Outcome.json 401 (Body.error "Unauthorized"), []⟩ := by
  decide

theorem historyHandlers_ignore_authorization (c : Config) (w : World) (req : Request)
    (header : GoString) :
    cpuHistoryHandler c w { req with Authorization := header } = cpuHistoryHandler c w req ∧
    memoryHistoryHandler c w { req with Authorization := header }
      = memoryHistoryHandler c w req :=
  ⟨rfl, rfl⟩

/-! ## Query composition -/

theorem composeQuery_from_present (base : String) (containerID fromS toS : GoString)
    (h : fromS ≠ []) :
    composeQuery base containerID fromS toS =
      if toS ≠ [] then
        (base ++ " AND CAST(time AS BIGINT) >= ?" ++ " AND" ++ " CAST(time AS BIGINT) <= ?"
            ++ " ORDER BY CAST(time AS BIGINT) ASC",
          [Param.text containerID, Param.int64 (unixMilli (parsedOrZero fromS)),
            Param.int64 (unixMilli (parsedOrZero toS))])
      else
        (base ++ " AND CAST(time AS BIGINT) >= ?" ++ " ORDER BY CAST(time AS BIGINT) ASC",
          [Param.text containerID, Param.int64 (unixMilli (parsedOrZero fromS))]) := by
  unfold composeQuery
  by_cases ht : toS = [] <;> simp [h, ht]

/-- The branch of lines 154-156 and 227-229, which no request reaches because `from` is
given its default before the composition: composed with an upper boundary and an empty lower
boundary, the text would hold a second `WHERE`. -/
theorem toOnly_query_has_second_where :
    (cpuQuery (ascii "abc") [] (ascii "2024-01-01T00:00:00Z")).1 =
      "SELECT time, container_id, percent FROM container_cpu_usage WHERE container_id = ? WHERE CAST(time AS BIGINT) <= ? ORDER BY CAST(time AS BIGINT) ASC" ∧
    whereCount (cpuQuery (ascii "abc") [] (ascii "2024-01-01T00:00:00Z")).1 = 2 ∧
    (memQuery (ascii "abc") [] (ascii "2024-01-01T00:00:00Z")).1 =
      "SELECT time, container_id, total, available, used, usedPercent, free FROM container_memory_usage WHERE container_id = ? WHERE CAST(time AS BIGINT) <= ? ORDER BY CAST(time AS BIGINT) ASC" ∧
    whereCount (memQuery (ascii "abc") [] (ascii "2024-01-01T00:00:00Z")).1 = 2 := by
  decide

theorem composeQuery_no_boundary (base : String) (containerID : GoString) :
    composeQuery base containerID [] [] =
      (base ++ " ORDER BY CAST(time AS BIGINT) ASC", [Param.text containerID]) := by
  simp [composeQuery]

theorem query_wellformed_unless_toOnly (containerID fromS toS : GoString)
    (h : fromS ≠ [] ∨ toS = []) :
    whereCount (cpuQuery containerID fromS toS).1 = 1 ∧
    placeholderCount (cpuQuery containerID fromS toS).1
      = (cpuQuery containerID fromS toS).2.length ∧
    whereCount (memQuery containerID fromS toS).1 = 1 ∧
    placeholderCount (memQuery containerID fromS toS).1
      = (memQuery containerID fromS toS).2.length := by
  by_cases hf : fromS = []
  · have ht : toS = [] := h.resolve_left (fun hne => hne hf)
    subst hf; subst ht
    simp only [cpuQuery, memQuery, composeQuery_no_boundary, List.length_cons,
      List.length_nil]
    exact ⟨by decide, by decide, by decide, by decide⟩
  · by_cases ht : toS = []
    · simp only [cpuQuery, memQuery, composeQuery_from_present _ _ _ _ hf, ht, ne_eq,
        not_true_eq_false, if_false, List.length_cons, List.length_nil]
      exact ⟨by decide, by decide, by decide, by decide⟩
    · simp only [cpuQuery, memQuery, composeQuery_from_present _ _ _ _ hf, ht, ne_eq,
        not_false_eq_true, if_true, List.length_cons, List.length_nil]
      exact ⟨by decide, by decide, by decide, by decide⟩

theorem effectiveFrom_ne_nil (req : Request) : effectiveFrom req ≠ [] := by
  unfold effectiveFrom
  by_cases h : req.queryFrom = []
  · rw [if_pos h]; decide
  · rw [if_neg h]; exact h

theorem formatLayout_ne_nil (t : GoTime) : formatLayout t ≠ [] := by
  intro h
  have hl := congrArg List.length h
  simp [formatLayout] at hl

theorem effectiveTo_ne_nil (w : World) (req : Request) : effectiveTo w req ≠ [] := by
  unfold effectiveTo
  by_cases h : req.queryTo = []
  · rw [if_pos h]; exact formatLayout_ne_nil _
  · rw [if_neg h]; exact h

theorem debugLog_not_query (c : Config) (format q : String) (ps : List Param) :
    Effect.databaseQuery q ps ∉ debugLog c format := by
  unfold debugLog
  cases c.Debug <;> simp

theorem memRows_queries (c : Config) (w : World)
    (rows : List (Except String (List GoString))) (usages : List MemUsage)
    (effects : List Effect) (q : String) (ps : List Param)
    (h : Effect.databaseQuery q ps ∈ (memRows c w rows usages effects).2) :
    Effect.databaseQuery q ps ∈ effects := by
  induction rows generalizing usages effects with
  | nil => simpa [memRows] using h
  | cons row rest ih =>
    unfold memRows at h
    split at h
    · exact h
    · simpa using h
    · rename_i heq
      simp only [List.cons.injEq] at heq
      obtain ⟨-, hrest⟩ := heq
      subst hrest
      have := ih _ _ h
      simpa [debugLog_not_query] using this
    · simpa using h

theorem cpuQueryText :
    cpuQueryBase ++ " AND CAST(time AS BIGINT) >= ?" ++ " AND" ++ " CAST(time AS BIGINT) <= ?"
        ++ " ORDER BY CAST(time AS BIGINT) ASC" =
      "SELECT time, container_id, percent FROM container_cpu_usage WHERE container_id = ? AND CAST(time AS BIGINT) >= ? AND CAST(time AS BIGINT) <= ? ORDER BY CAST(time AS BIGINT) ASC" := by
  decide

theorem memQueryText :
    memQueryBase ++ " AND CAST(time AS BIGINT) >= ?" ++ " AND" ++ " CAST(time AS BIGINT) <= ?"
        ++ " ORDER BY CAST(time AS BIGINT) ASC" =
      "SELECT time, container_id, total, available, used, usedPercent, free FROM container_memory_usage WHERE container_id = ? AND CAST(time AS BIGINT) >= ? AND CAST(time AS BIGINT) <= ? ORDER BY CAST(time AS BIGINT) ASC" := by
  decide

/-- C3: for every request, whether `from` and `to` are empty or not, the query that the CPU
and the memory history handler compose has one `WHERE`, the identifier equality first, the
lower and the upper boundary clause each joined with `AND`, and as many `?` as parameters;
it is the only query the handler sends. -/
theorem history_query_wellformed (c : Config) (w : World) (req : Request) :
    cpuQuery (sanitizeContainerID req.containerId) (effectiveFrom req) (effectiveTo w req) =
      ("SELECT time, container_id, percent FROM container_cpu_usage WHERE container_id = ? AND CAST(time AS BIGINT) >= ? AND CAST(time AS BIGINT) <= ? ORDER BY CAST(time AS BIGINT) ASC",
        [Param.text (sanitizeContainerID req.containerId),
          Param.int64 (unixMilli (parsedOrZero (effectiveFrom req))),
          Param.int64 (unixMilli (parsedOrZero (effectiveTo w req)))]) ∧
    whereCount (cpuQuery (sanitizeContainerID req.containerId) (effectiveFrom req)
      (effectiveTo w req)).1 = 1 ∧
    placeholderCount (cpuQuery (sanitizeContainerID req.containerId) (effectiveFrom req)
      (effectiveTo w req)).1
      = (cpuQuery (sanitizeContainerID req.containerId) (effectiveFrom req)
          (effectiveTo w req)).2.length ∧
    (∀ q ps, Effect.databaseQuery q ps ∈ (cpuHistoryHandler c w req).effects →
      (q, ps) = cpuQuery (sanitizeContainerID req.containerId) (effectiveFrom req)
        (effectiveTo w req)) ∧
    memQuery (sanitizeContainerID req.containerId) (effectiveFrom req) (effectiveTo w req) =
      ("SELECT time, container_id, total, available, used, usedPercent, free FROM container_memory_usage WHERE container_id = ? AND CAST(time AS BIGINT) >= ? AND CAST(time AS BIGINT) <= ? ORDER BY CAST(time AS BIGINT) ASC",
        [Param.text (sanitizeContainerID req.containerId),
          Param.int64 (unixMilli (parsedOrZero (effectiveFrom req))),
          Param.int64 (unixMilli (parsedOrZero (effectiveTo w req)))]) ∧
    whereCount (memQuery (sanitizeContainerID req.containerId) (effectiveFrom req)
      (effectiveTo w req)).1 = 1 ∧
    placeholderCount (memQuery (sanitizeContainerID req.containerId) (effectiveFrom req)
      (effectiveTo w req)).1
      = (memQuery (sanitizeContainerID req.containerId) (effectiveFrom req)
          (effectiveTo w req)).2.length ∧
    (∀ q ps, Effect.databaseQuery q ps ∈ (memoryHistoryHandler c w req).effects →
      (q, ps) = memQuery (sanitizeContainerID req.containerId) (effectiveFrom req)
        (effectiveTo w req)) := by
  have hf := effectiveFrom_ne_nil req
  have ht := effectiveTo_ne_nil w req
  have hw := query_wellformed_unless_toOnly (sanitizeContainerID req.containerId)
    (effectiveFrom req) (effectiveTo w req) (Or.inl hf)
  have hcq : ∀ base : String,
      composeQuery base (sanitizeContainerID req.containerId) (effectiveFrom req)
        (effectiveTo w req) =
      (base ++ " AND CAST(time AS BIGINT) >= ?" ++ " AND" ++ " CAST(time AS BIGINT) <= ?"
          ++ " ORDER BY CAST(time AS BIGINT) ASC",
        [Param.text (sanitizeContainerID req.containerId),
          Param.int64 (unixMilli (parsedOrZero (effectiveFrom req))),
          Param.int64 (unixMilli (parsedOrZero (effectiveTo w req)))]) := by
    intro base
    rw [composeQuery_from_present _ _ _ _ hf, if_pos ht]
  refine ⟨?_, hw.1, hw.2.1, ?_, ?_, hw.2.2.1, hw.2.2.2, ?_⟩
  · unfold cpuQuery
    rw [hcq, cpuQueryText]
  · intro q ps hmem
    unfold cpuHistoryHandler at hmem
    simp only at hmem
    split at hmem
    · simp at hmem
    · split at hmem
      · simp only [List.mem_singleton, Effect.databaseQuery.injEq] at hmem
        exact Prod.ext hmem.1 hmem.2
      · split at hmem <;>
        · simp only [List.mem_singleton, Effect.databaseQuery.injEq] at hmem
          exact Prod.ext hmem.1 hmem.2
  · unfold memQuery
    rw [hcq, memQueryText]
  · intro q ps hmem
    unfold memoryHistoryHandler at hmem
    simp only at hmem
    have hlog : ∀ e ∈ debugLog c "[DEBUG] Container memory history request" ++
        debugLog c "[DEBUG] Container memory query" ++
        [Effect.databaseQuery
          (memQuery (sanitizeContainerID req.containerId) (effectiveFrom req)
            (effectiveTo w req)).1
          (memQuery (sanitizeContainerID req.containerId) (effectiveFrom req)
            (effectiveTo w req)).2],
        e = Effect.databaseQuery q ps →
        (q, ps) = memQuery (sanitizeContainerID req.containerId) (effectiveFrom req)
          (effectiveTo w req) := by
      intro e he heq
      subst heq
      simp only [List.mem_append, List.mem_singleton, Effect.databaseQuery.injEq] at he
      rcases he with (he | he) | he
      · exact absurd he (debugLog_not_query c _ q ps)
      · exact absurd he (debugLog_not_query c _ q ps)
      · exact Prod.ext he.1 he.2
    split at hmem
    · exact absurd hmem (debugLog_not_query c _ q ps)
    · split at hmem
      · exact hlog _ hmem rfl
      · split at hmem
        · rename_i heq
          have h2 := congrArg Prod.snd heq
          simp only at h2
          rw [← h2] at hmem
          exact hlog _ (memRows_queries c w _ _ _ q ps hmem) rfl
        · rename_i heq
          have h2 := congrArg Prod.snd heq
          simp only at h2
          rw [← h2] at hmem
          rcases List.mem_append.mp hmem with h1 | h1
          · exact hlog _ (memRows_queries c w _ _ _ q ps h1) rfl
          · exact absurd h1 (debugLog_not_query c _ q ps)

/-! ## Display name -/

theorem displayName_eq_none_iff (container : DockerContainer) :
    displayName container = none ↔ container.Names = [] ∧ container.ID.length < 12 := by
  obtain ⟨id, names, image, state, labels⟩ := container
  cases names with
  | nil => simp [displayName, sliceTo]
  | cons first rest =>
    by_cases h : 1 < first.length
    · have h1 : 1 ≤ first.length := Nat.le_of_lt h
      simp [displayName, sliceFrom, h, h1]
    · simp [displayName, h]

/-- C7 (as amended): a first name longer than one byte loses its first byte, whatever that
byte is; a first name of at most one byte is kept as it is; without names the first 12 bytes
of an identifier of at least 12 bytes are taken.  `/web-1` gives `web-1`, and no name with
identifier `abcdef0123456789` gives `abcdef012345`. -/
theorem displayName_by_length :
    (∀ container first rest, container.Names = first :: rest → 1 < first.length →
      displayName container = some (first.drop 1)) ∧
    (∀ container first rest, container.Names = first :: rest → first.length ≤ 1 →
      displayName container = some first) ∧
    (∀ container, container.Names = [] → 12 ≤ container.ID.length →
      displayName container = some (container.ID.take 12)) ∧
    displayName webContainer = some (ascii "web-1") ∧
    displayName unnamedContainer = some (ascii "abcdef012345") := by
  refine ⟨?_, ?_, ?_, by decide, by decide⟩
  · intro container first rest hn hl
    have h1 : 1 ≤ first.length := Nat.le_of_lt hl
    simp [displayName, sliceFrom, hn, hl, h1]
  · intro container first rest hn hl
    have h1 : ¬ 1 < first.length := Nat.not_lt.mpr hl
    simp [displayName, hn, h1]
  · intro container hn hl
    simp [displayName, sliceTo, hn, hl]

/-- C7 (as stated) fails: the first name `web-1` has no leading separator and the derived
name is `eb-1`, not the raw first name. -/
theorem displayName_strips_without_separator :
    plainNameContainer.Names = [ascii "web-1"] ∧
    (ascii "web-1").head? ≠ some 47 ∧
    displayName plainNameContainer = some (ascii "eb-1") ∧
    displayName plainNameContainer ≠ some (ascii "web-1") := by
  decide

/-- C10: for a container without names whose identifier is `abc` the slice `ID[:12]` is out
of range: the derivation of the display name panics. -/
theorem displayName_short_id_panics :
    shortIdContainer.Names = [] ∧ shortIdContainer.ID.length = 3 ∧
    sliceTo shortIdContainer.ID 12 = none ∧
    displayName shortIdContainer = none := by
  decide

/-! ## `GET /api/containers` -/

theorem containersLoop_of_names (w : World) (cs : List DockerContainer)
    (h : ∀ container ∈ cs, displayName container ≠ none) (i : Nat)
    (hh : ∀ p ∈ cs.enumFrom i, healthStatus (w.inspect p.1 (inspectPath p.2.ID)) ≠ none)
    (result : List Container) (effects : List Effect) :
    containersLoop w i cs result effects =
      ⟨Outcome.json 200 (Body.containers (result ++ snapshotsFrom w i cs)),
        effects ++ cs.map (fun container => Effect.dockerRequest (inspectPath container.ID))⟩ := by
  induction cs generalizing i result effects with
  | nil => simp [containersLoop, snapshotsFrom, ctxJSON, Body.encodable]
  | cons container rest ih =>
    have hc : displayName container ≠ none := h container (List.mem_cons_self _ _)
    obtain ⟨name, hname⟩ := Option.ne_none_iff_exists'.mp hc
    have hrest : ∀ x ∈ rest, displayName x ≠ none :=
      fun x hx => h x (List.mem_cons_of_mem _ hx)
    have hhc : healthStatus (w.inspect i (inspectPath container.ID)) ≠ none :=
      hh (i, container) (by simp [List.enumFrom_cons])
    obtain ⟨health, hhealth⟩ := Option.ne_none_iff_exists'.mp hhc
    have hhrest : ∀ p ∈ rest.enumFrom (i + 1),
        healthStatus (w.inspect p.1 (inspectPath p.2.ID)) ≠ none :=
      fun p hp => hh p (by simp [List.enumFrom_cons, hp])
    simp only [containersLoop, hname, hhealth]
    rw [ih hrest (i + 1) hhrest]
    simp [snapshotsFrom, snapshotAt, hname, hhealth]

theorem snapshotsFrom_ids (w : World) (cs : List DockerContainer) (i : Nat) :
    (snapshotsFrom w i cs).map (fun s => s.ID) = cs.map (fun container => container.ID) := by
  induction cs generalizing i with
  | nil => rfl
  | cons container rest ih => simp [snapshotsFrom, snapshotAt, ih]

theorem snapshotsFrom_health (w : World) (cs : List DockerContainer) (i : Nat) :
    (snapshotsFrom w i cs).map (fun s => some s.HealthStatus) =
      (cs.enumFrom i).map (fun p => some
        ((healthStatus (w.inspect p.1 (inspectPath p.2.ID))).getD [])) := by
  induction cs generalizing i with
  | nil => rfl
  | cons container rest ih =>
    simp only [snapshotsFrom, snapshotAt, List.map_cons, List.enumFrom_cons, ih (i + 1)]

theorem healthStatus_ne_none_of_base (base : ContainerJSONBase) :
    healthStatus (InspectOutcome.ok ⟨some base⟩) ≠ none := by
  obtain ⟨state⟩ := base
  cases state with
  | none => simp [healthStatus]
  | some st =>
    obtain ⟨health⟩ := st
    cases health <;> simp [healthStatus]

/-- On an authorized request whose listed containers all have a name or an identifier of at
least 12 bytes and whose inspect bodies, when decoded, all carry the base of the inspect
data, the list handler answers 200 with one snapshot per container, in order, the health of
the k-th one read from the k-th inspect call alone. -/
theorem containersHandler_one_snapshot_each (c : Config) (w : World) (req : Request)
    (cs : List DockerContainer) (hauth : req.Authorization = ascii "Bearer " ++ c.Token)
    (hlist : w.listContainers = ListOutcome.ok cs)
    (hnames : ∀ container ∈ cs, container.Names ≠ [] ∨ 12 ≤ container.ID.length)
    (hbase : ∀ p ∈ cs.enumFrom 0, ∀ data,
      w.inspect p.1 (inspectPath p.2.ID) = InspectOutcome.ok data → data.Base ≠ none) :
    (containersHandler c w req).outcome =
      Outcome.json 200 (Body.containers (snapshotsFrom w 0 cs)) ∧
    (snapshotsFrom w 0 cs).length = cs.length ∧
    (snapshotsFrom w 0 cs).map (fun s => s.ID) = cs.map (fun container => container.ID) ∧
    (snapshotsFrom w 0 cs).map (fun s => some s.HealthStatus) =
      (cs.enumFrom 0).map (fun p => healthStatus (w.inspect p.1 (inspectPath p.2.ID))) := by
  have hn : ∀ container ∈ cs, displayName container ≠ none := by
    intro container hmem hnone
    rw [displayName_eq_none_iff] at hnone
    rcases hnames container hmem with h1 | h2
    · exact h1 hnone.1
    · exact absurd hnone.2 (Nat.not_lt.mpr h2)
  have hh : ∀ p ∈ cs.enumFrom 0,
      healthStatus (w.inspect p.1 (inspectPath p.2.ID)) ≠ none := by
    intro p hp
    cases ho : w.inspect p.1 (inspectPath p.2.ID) with
    | ok data =>
      have hb := hbase p hp data ho
      obtain ⟨base⟩ := data
      obtain ⟨b, hb'⟩ := Option.ne_none_iff_exists'.mp hb
      simp only at hb'
      subst hb'
      exact healthStatus_ne_none_of_base b
    | requestError e => simp [healthStatus]
    | readError e => simp [healthStatus]
    | unmarshalError e => simp [healthStatus]
  have hids := snapshotsFrom_ids w cs 0
  refine ⟨?_, ?_, hids, ?_⟩
  · unfold containersHandler
    simp [hauth, hlist, containersLoop_of_names w cs hn 0 hh]
  · have := congrArg List.length hids
    simpa using this
  · rw [snapshotsFrom_health]
    apply List.map_congr_left
    intro p hp
    obtain ⟨health, hhealth⟩ := Option.ne_none_iff_exists'.mp (hh p hp)
    simp [hhealth]

theorem healthStatus_of_failed_inspect (o : InspectOutcome)
    (h : ∀ data, o ≠ InspectOutcome.ok data) : healthStatus o = some (ascii "unknown") := by
  cases o with
  | ok data => exact absurd rfl (h data)
  | requestError e => rfl
  | readError e => rfl
  | unmarshalError e => rfl

/-- When the body of an inspect call decodes without the base of the inspect data, the read
of `inspectData.State` at line 69 panics and the list request ends there. -/
theorem containersHandler_panics_on_nil_base :
    nilBaseWorld.inspect 0 (inspectPath webContainer.ID) = InspectOutcome.ok ⟨none⟩ ∧
    containersHandler sampleConfig nilBaseWorld authorizedRequest =
      ⟨Outcome.panic "runtime error: invalid memory address or nil pointer dereference",
        [Effect.dockerRequest listPath, Effect.dockerRequest (inspectPath webContainer.ID)]⟩ := by
  decide

/-- C8: when the runtime lists `/web-1` and then a container without names whose identifier
is `abc`, the authorized list request ends in a slice-bounds panic after the list call and
one inspect call, not in a 200 with two snapshots. -/
theorem containersHandler_panics_on_short_id :
    shortIdWorld.listContainers = ListOutcome.ok [webContainer, shortIdContainer] ∧
    authorizedRequest.Authorization = ascii "Bearer " ++ sampleConfig.Token ∧
    containersHandler sampleConfig shortIdWorld authorizedRequest =
      ⟨Outcome.panic "runtime error: slice bounds out of range",
        [Effect.dockerRequest listPath, Effect.dockerRequest (inspectPath webContainer.ID)]⟩ := by
  decide

/-! ## `GET /api/disk` -/

/-- C9: for a root filesystem that reports no blocks the total is 0 and the handler divides
all the same: `usedPercent` is `0/0`, which is NaN; the encoder refuses it and the answer is
a 200 without body, not a report whose `usedPercent` is 0. -/
theorem diskHandler_loses_response_for_empty_fs :
    emptyFsWorld.statfs.toOption.map (fun fs => (diskUsage emptyFsWorld.rnd fs).1) = some 0 ∧
    emptyFsWorld.statfs.toOption.map (fun fs => (diskUsage emptyFsWorld.rnd fs).2.2.2)
      = some F64.nan ∧
    F64.nan ≠ F64.fin 0 ∧
    diskHandler sampleConfig emptyFsWorld authorizedRequest
      = ⟨Outcome.emptyBody 200, [Effect.statfsCall]⟩ := by
  decide

theorem percentOf (rnd : ℚ → ℚ) (u t : Nat) :
    F64.mul rnd (F64.div rnd (F64.ofUint64 rnd u) (F64.ofUint64 rnd t)) (F64.fin 100) =
      if rnd t = 0 then
        (if rnd u = 0 then F64.nan else if 0 < rnd u then F64.posInf else F64.negInf)
      else F64.fin (rnd (rnd (rnd u / rnd t) * 100)) := by
  unfold F64.ofUint64
  by_cases ht : rnd t = 0
  · by_cases hu : rnd u = 0
    · simp [F64.div, F64.mul, ht, hu]
    · by_cases hp : 0 < rnd u
      · simp [F64.div, F64.mul, ht, hu, hp]
      · simp [F64.div, F64.mul, ht, hu, hp]
  · simp [F64.div, F64.mul, ht]

theorem diskUsage_pct (rnd : ℚ → ℚ) (fs : Statfs) :
    (diskUsage rnd fs).2.2.2 =
      F64.mul rnd (F64.div rnd (F64.ofUint64 rnd (diskUsage rnd fs).2.1)
        (F64.ofUint64 rnd (diskUsage rnd fs).1)) (F64.fin 100) := rfl

/-- The four values of lines 103-106: in `uint64` arithmetic total = blocks × block size,
free = free blocks × block size and used = total − free, exactly so when the products fit
64 bits and the free blocks do not exceed the blocks; the percentage is
`float64(used)/float64(total) × 100`, and for a zero total the quotient is NaN or +Inf. -/
theorem diskUsage_values (rnd : ℚ → ℚ) (fs : Statfs)
    (hrnd : ∀ n : ℕ, 0 ≤ rnd n ∧ (rnd n = 0 ↔ n = 0)) :
    (diskUsage rnd fs).1 = fs.Blocks * toUint64 fs.Bsize % 2 ^ 64 ∧
    (diskUsage rnd fs).2.2.1 = fs.Bfree * toUint64 fs.Bsize % 2 ^ 64 ∧
    (diskUsage rnd fs).2.1 =
      ((diskUsage rnd fs).1 + 2 ^ 64 - (diskUsage rnd fs).2.2.1) % 2 ^ 64 ∧
    (0 ≤ fs.Bsize → fs.Bfree ≤ fs.Blocks → fs.Blocks * fs.Bsize < 2 ^ 64 →
      ((diskUsage rnd fs).1 : Int) = fs.Blocks * fs.Bsize ∧
      ((diskUsage rnd fs).2.2.1 : Int) = fs.Bfree * fs.Bsize ∧
      (diskUsage rnd fs).2.1 = (diskUsage rnd fs).1 - (diskUsage rnd fs).2.2.1) ∧
    ((diskUsage rnd fs).1 ≠ 0 →
      (diskUsage rnd fs).2.2.2 =
        F64.fin (rnd (rnd (rnd (diskUsage rnd fs).2.1 / rnd (diskUsage rnd fs).1) * 100))) ∧
    ((diskUsage rnd fs).1 = 0 → (diskUsage rnd fs).2.1 = 0 →
      (diskUsage rnd fs).2.2.2 = F64.nan) ∧
    ((diskUsage rnd fs).1 = 0 → (diskUsage rnd fs).2.1 ≠ 0 →
      (diskUsage rnd fs).2.2.2 = F64.posInf) := by
  refine ⟨rfl, rfl, rfl, ?_, ?_, ?_, ?_⟩
  · intro hb hfree hfit
    obtain ⟨blocks, bfree, bsize⟩ := fs
    simp only at hb hfree hfit
    obtain ⟨k, rfl⟩ := Int.eq_ofNat_of_zero_le hb
    have hk : toUint64 (k : Int) = k % 2 ^ 64 := by
      unfold toUint64
      have : ((k : Int) % 2 ^ 64) = ((k % 2 ^ 64 : Nat) : Int) := by push_cast; rfl
      rw [this, Int.toNat_ofNat]
    have hfit' : blocks * k < 2 ^ 64 := by exact_mod_cast hfit
    have hfree' : bfree * k ≤ blocks * k := Nat.mul_le_mul_right k hfree
    have hm : blocks * (k % 2 ^ 64) % 2 ^ 64 = blocks * k := by
      rw [Nat.mul_mod, Nat.mod_mod, ← Nat.mul_mod, Nat.mod_eq_of_lt hfit']
    have hf : bfree * (k % 2 ^ 64) % 2 ^ 64 = bfree * k := by
      rw [Nat.mul_mod, Nat.mod_mod, ← Nat.mul_mod,
        Nat.mod_eq_of_lt (Nat.lt_of_le_of_lt hfree' hfit')]
    simp only [diskUsage, hk, hm, hf]
    refine ⟨by push_cast; rfl, by push_cast; rfl, ?_⟩
    have : blocks * k + 2 ^ 64 - bfree * k = (blocks * k - bfree * k) + 2 ^ 64 := by omega
    rw [this, Nat.add_mod_right, Nat.mod_eq_of_lt]
    omega
  · intro ht
    have h0 : rnd ((diskUsage rnd fs).1 : ℕ) ≠ 0 := fun h => ht ((hrnd _).2.1 h)
    rw [diskUsage_pct, percentOf, if_neg h0]
  · intro ht hu
    have h0 : rnd ((diskUsage rnd fs).1 : ℕ) = 0 := (hrnd _).2.2 ht
    have h1 : rnd ((diskUsage rnd fs).2.1 : ℕ) = 0 := (hrnd _).2.2 hu
    rw [diskUsage_pct, percentOf, if_pos h0, if_pos h1]
  · intro ht hu
    have h0 : rnd ((diskUsage rnd fs).1 : ℕ) = 0 := (hrnd _).2.2 ht
    have h1 : rnd ((diskUsage rnd fs).2.1 : ℕ) ≠ 0 := fun h => hu ((hrnd _).2.1 h)
    have h2 : 0 < rnd ((diskUsage rnd fs).2.1 : ℕ) :=
      lt_of_le_of_ne (hrnd _).1 (Ne.symm h1)
    rw [diskUsage_pct, percentOf, if_pos h0, if_neg h1, if_pos h2]

/-- The values at a root filesystem of 1000 blocks of 4096 bytes, 250 of them free, with
exact arithmetic. -/
theorem diskUsage_values_witness :
    (diskUsage id ⟨1000, 250, 4096⟩).1 = 4096000 ∧
    (diskUsage id ⟨1000, 250, 4096⟩).2.2.2 = F64.fin 75 := by
  have hid : ∀ n : ℕ, 0 ≤ id (n : ℚ) ∧ (id (n : ℚ) = 0 ↔ n = 0) := by
    intro n
    exact ⟨Nat.cast_nonneg n, by simp⟩
  have h := diskUsage_values id ⟨1000, 250, 4096⟩ hid
  refine ⟨by rw [h.1]; decide, ?_⟩
  have hne : (diskUsage id ⟨1000, 250, 4096⟩).1 ≠ 0 := by rw [h.1]; decide
  rw [h.2.2.2.2.1 hne]
  have e1 : (diskUsage id ⟨1000, 250, 4096⟩).1 = 4096000 := by rw [h.1]; decide
  have e2 : (diskUsage id ⟨1000, 250, 4096⟩).2.1 = 3072000 := by rw [h.2.2.1, e1, h.2.1]; decide
  rw [e1, e2]
  simp only [id]
  norm_num

/-- On an authorized request, for counters whose total is not 0, the disk handler answers 200
with the four values of lines 103-106. -/
theorem diskHandler_reports_usage (c : Config) (w : World) (req : Request) (fs : Statfs)
    (hauth : req.Authorization = ascii "Bearer " ++ c.Token)
    (hfs : w.statfs = Except.ok fs)
    (hrnd : ∀ n : ℕ, 0 ≤ w.rnd n ∧ (w.rnd n = 0 ↔ n = 0))
    (ht : (diskUsage w.rnd fs).1 ≠ 0) :
    diskHandler c w req =
      ⟨Outcome.json 200 (Body.disk (diskUsage w.rnd fs).1 (diskUsage w.rnd fs).2.1
          (diskUsage w.rnd fs).2.2.1
          (F64.fin (w.rnd (w.rnd (w.rnd (diskUsage w.rnd fs).2.1 / w.rnd (diskUsage w.rnd fs).1)
            * 100)))),
        [Effect.statfsCall]⟩ := by
  have hp := (diskUsage_values w.rnd fs hrnd).2.2.2.2.1 ht
  unfold diskHandler
  rw [if_neg (not_not.mpr hauth), hfs]
  simp only [hp, ctxJSON, Body.encodable, F64.encodable, if_true]

/-! ## Boundary validation in the history handlers -/

theorem defaultFrom_parses : timeParse (ascii "1970-01-01T00:00:01Z") ≠ none := by decide

theorem validateWindow_of_malformed (w : World) (req : Request)
    (h : (req.queryFrom ≠ [] ∧ timeParse req.queryFrom = none) ∨
      (req.queryTo ≠ [] ∧ timeParse req.queryTo = none)) :
    validateWindow (effectiveFrom req) (effectiveTo w req) =
      some (if req.queryFrom ≠ [] ∧ timeParse req.queryFrom = none then invalidFromMsg
        else invalidToMsg) := by
  by_cases hA : req.queryFrom ≠ [] ∧ timeParse req.queryFrom = none
  · have hf : effectiveFrom req = req.queryFrom := by
      unfold effectiveFrom; rw [if_neg hA.1]
    rw [if_pos hA]
    unfold validateWindow
    rw [hf, if_pos ⟨hA.1, by rw [hA.2]; rfl⟩]
  · have hB : req.queryTo ≠ [] ∧ timeParse req.queryTo = none := h.resolve_left hA
    have ht : effectiveTo w req = req.queryTo := by
      unfold effectiveTo; rw [if_neg hB.1]
    have hfrom : ¬ (effectiveFrom req ≠ [] ∧ (timeParse (effectiveFrom req)).isNone = true) := by
      rintro ⟨hne, hnone⟩
      rw [Option.isNone_iff_eq_none] at hnone
      unfold effectiveFrom at hne hnone
      by_cases he : req.queryFrom = []
      · rw [if_pos he] at hnone
        exact defaultFrom_parses hnone
      · rw [if_neg he] at hnone
        exact hA ⟨he, hnone⟩
    rw [if_neg hA]
    unfold validateWindow
    rw [if_neg hfrom, ht, if_pos ⟨hB.1, by rw [hB.2]; rfl⟩]

theorem debugLog_no_query (c : Config) (format : String) :
    queriesDatabase ⟨Outcome.panic "", debugLog c format⟩ = false := by
  unfold debugLog queriesDatabase
  cases c.Debug <;> simp

/-- C5: when the supplied `from` or `to` of a CPU or memory history request fails
`time.Parse`, the handler answers 400 with the message of the boundary that failed, `from`
being checked before `to`, and makes no `Query` call; `2024-13-50` fails the parse. -/
theorem malformed_boundary_answers_400 (c : Config) (w : World) (req : Request)
    (h : (req.queryFrom ≠ [] ∧ timeParse req.queryFrom = none) ∨
      (req.queryTo ≠ [] ∧ timeParse req.queryTo = none)) :
    (cpuHistoryHandler c w req).outcome =
      Outcome.json 400 (Body.error
        (if req.queryFrom ≠ [] ∧ timeParse req.queryFrom = none then invalidFromMsg
          else invalidToMsg)) ∧
    queriesDatabase (cpuHistoryHandler c w req) = false ∧
    (memoryHistoryHandler c w req).outcome =
      Outcome.json 400 (Body.error
        (if req.queryFrom ≠ [] ∧ timeParse req.queryFrom = none then invalidFromMsg
          else invalidToMsg)) ∧
    queriesDatabase (memoryHistoryHandler c w req) = false ∧
    timeParse (ascii "2024-13-50") = none := by
  have hv := validateWindow_of_malformed w req h
  refine ⟨?_, ?_, ?_, ?_, by decide⟩
  · simp only [cpuHistoryHandler, hv]
    rfl
  · simp only [cpuHistoryHandler, hv]
    rfl
  · simp only [memoryHistoryHandler, hv]
    rfl
  · simp only [memoryHistoryHandler, hv]
    exact debugLog_no_query c _

/-- C5 at the request whose `from` is `2024-13-50`: 400 with the `from` message, no query. -/
theorem malformed_boundary_answers_400_witness :
    (cpuHistoryHandler sampleConfig sampleWorld badFromRequest).outcome =
      Outcome.json 400 (Body.error invalidFromMsg) ∧
    queriesDatabase (cpuHistoryHandler sampleConfig sampleWorld badFromRequest) = false ∧
    (memoryHistoryHandler sampleConfig sampleWorld badFromRequest).outcome =
      Outcome.json 400 (Body.error invalidFromMsg) ∧
    queriesDatabase (memoryHistoryHandler sampleConfig sampleWorld badFromRequest) = false := by
  have hbad : badFromRequest.queryFrom ≠ [] ∧ timeParse badFromRequest.queryFrom = none := by
    decide
  have h := malformed_boundary_answers_400 sampleConfig sampleWorld badFromRequest
    (Or.inl hbad)
  rw [if_pos hbad] at h
  exact ⟨h.1, h.2.1, h.2.2.1, h.2.2.2.1⟩

/-! ## Decoding of memory rows -/

theorem parseUintLoop_error_value (s : GoString) (n : Nat) :
    ((parseUintLoop n s).2 = some NumError.errSyntax → (parseUintLoop n s).1 = 0) ∧
    ((parseUintLoop n s).2 = some NumError.errRange → (parseUintLoop n s).1 = maxUint64) := by
  induction s generalizing n with
  | nil => simp [parseUintLoop]
  | cons c rest ih =>
    unfold parseUintLoop
    cases hd : digitValue c with
    | none => simp
    | some d =>
      simp only
      split_ifs
      · simp
      · simp
      · simp
      · exact ih _

theorem parseUint_error_value (s : GoString) :
    ((parseUint s).2 = some NumError.errSyntax → (parseUint s).1 = 0) ∧
    ((parseUint s).2 = some NumError.errRange → (parseUint s).1 = maxUint64) := by
  unfold parseUint
  split_ifs
  · simp
  · exact parseUintLoop_error_value s 0

theorem memRows_scanned (c : Config) (w : World) (rows : List MemColumns)
    (usages : List MemUsage) (effects : List Effect) :
    (memRows c w (rows.map MemColumns.scanned) usages effects).1 =
      Except.ok (usages ++ rows.map (MemColumns.decode w)) := by
  induction rows generalizing usages effects with
  | nil => simp [memRows]
  | cons r rest ih =>
    simp only [List.map_cons, MemColumns.scanned, memRows]
    rw [ih]
    simp [MemColumns.decode]

/-- C6 (as stated) fails: the `total` text `18446744073709551616` is out of range for
`ParseUint`, and the row decodes `Total` as 18446744073709551615, not as 0; the `used` text
`12x` is a syntax error and decodes as 0, and the other fields keep their parsed values. -/
theorem outOfRange_field_decodes_as_max :
    (parseUint corruptedRow.total).2 = some NumError.errRange ∧
    (corruptedRow.decode sampleWorld).Total = 18446744073709551615 ∧
    (corruptedRow.decode sampleWorld).Total ≠ 0 ∧
    (parseUint corruptedRow.used).2 = some NumError.errSyntax ∧
    (corruptedRow.decode sampleWorld).Used = 0 ∧
    (corruptedRow.decode sampleWorld).Available = 2048 ∧
    (corruptedRow.decode sampleWorld).Free = 1024 := by
  decide

theorem decimalFrom_ge (ds : GoString) (n : Nat) : n ≤ decimalFrom n ds := by
  induction ds generalizing n with
  | nil => exact Nat.le_refl n
  | cons d rest ih =>
    have h := ih (n * 10 + (d - 48))
    simp only [decimalFrom, List.foldl_cons] at h ⊢
    omega

theorem parseUintLoop_digits (pre tail : GoString) (n : Nat) (hn : n < 2 ^ 64)
    (hd : ∀ b ∈ pre, isDigitByte b = true) :
    parseUintLoop n (pre ++ tail) =
      if decimalFrom n pre < 2 ^ 64 then parseUintLoop (decimalFrom n pre) tail
      else (maxUint64, some NumError.errRange) := by
  have h64 : (2 : Nat) ^ 64 = 18446744073709551616 := by norm_num
  have hcut : maxUint64 / 10 + 1 = 1844674407370955162 := by decide
  induction pre generalizing n with
  | nil =>
    have hf : decimalFrom n [] = n := rfl
    rw [List.nil_append, hf, if_pos hn]
  | cons d rest ih =>
    have hdig : 48 ≤ d ∧ d ≤ 57 := by
      have := hd d (List.mem_cons_self _ _)
      simpa [isDigitByte] using this
    have hrest : ∀ b ∈ rest, isDigitByte b = true := fun b hb => hd b (List.mem_cons_of_mem _ hb)
    have hdv : digitValue d = some (d - 48) := by
      unfold digitValue
      rw [if_pos hdig]
    have hfold : decimalFrom n (d :: rest) = decimalFrom (n * 10 + (d - 48)) rest := rfl
    have hge := decimalFrom_ge rest (n * 10 + (d - 48))
    rw [List.cons_append, parseUintLoop, hdv, hfold]
    simp only
    have hlt10 : ¬ d - 48 ≥ 10 := by omega
    rw [if_neg hlt10, hcut]
    rw [h64] at hn ⊢
    by_cases hc : n ≥ 1844674407370955162
    · rw [if_pos hc, if_neg (by omega)]
    · rw [if_neg hc]
      have hm : n * 10 % 18446744073709551616 = n * 10 := Nat.mod_eq_of_lt (by omega)
      rw [hm]
      by_cases hov : n * 10 + (d - 48) < 18446744073709551616
      · have hm1 : (n * 10 + (d - 48)) % 18446744073709551616 = n * 10 + (d - 48) :=
          Nat.mod_eq_of_lt hov
        rw [hm1, if_neg (by unfold maxUint64; omega)]
        have := ih (n * 10 + (d - 48)) (by rw [h64]; exact hov) hrest
        rw [h64] at this
        exact this
      · have hm1 : (n * 10 + (d - 48)) % 18446744073709551616
            = n * 10 + (d - 48) - 18446744073709551616 := by
          rw [Nat.mod_eq_sub_mod (by omega)]
          exact Nat.mod_eq_of_lt (by omega)
        rw [hm1, if_pos (Or.inl (by omega)), if_neg (by omega)]

theorem parseUint_of_digits (ds : GoString) (hne : ds ≠ [])
    (hd : ∀ b ∈ ds, isDigitByte b = true) (hv : decimalValue ds < 2 ^ 64) :
    parseUint ds = (decimalValue ds, none) := by
  have h := parseUintLoop_digits ds [] 0 (by norm_num) hd
  rw [List.append_nil] at h
  have hv' : decimalFrom 0 ds < 2 ^ 64 := hv
  unfold parseUint
  rw [if_neg hne, h, if_pos hv']
  rfl

theorem parseUint_out_of_range (pre rest : GoString)
    (hd : ∀ b ∈ pre, isDigitByte b = true) (hv : 2 ^ 64 ≤ decimalValue pre) :
    parseUint (pre ++ rest) = (2 ^ 64 - 1, some NumError.errRange) := by
  have hne : pre ++ rest ≠ [] := by
    intro h
    have hp : pre = [] := (List.append_eq_nil.mp h).1
    subst hp
    simp [decimalValue, decimalFrom] at hv
  have h := parseUintLoop_digits pre rest 0 (by norm_num) hd
  unfold parseUint
  have hv' : ¬ decimalFrom 0 pre < 2 ^ 64 := Nat.not_lt.mpr hv
  rw [if_neg hne, h, if_neg hv']
  rfl

theorem parseUint_bad_byte (pre rest : GoString) (ch : Nat)
    (hd : ∀ b ∈ pre, isDigitByte b = true) (hv : decimalValue pre < 2 ^ 64)
    (hch : isDigitByte ch = false) :
    parseUint (pre ++ ch :: rest) = (0, some NumError.errSyntax) := by
  have hne : pre ++ ch :: rest ≠ [] := by simp
  have h := parseUintLoop_digits pre (ch :: rest) 0 (by norm_num) hd
  have hv' : decimalFrom 0 pre < 2 ^ 64 := hv
  unfold parseUint
  rw [if_neg hne, h, if_pos hv']
  have hnd : ¬ (48 ≤ ch ∧ ch ≤ 57) := by
    intro hh
    have : isDigitByte ch = true := by simp [isDigitByte, hh.1, hh.2]
    rw [hch] at this
    exact Bool.noConfusion this
  unfold parseUintLoop digitValue
  rw [if_neg hnd]
  by_cases hl : 97 ≤ (ch ||| 32) ∧ (ch ||| 32) ≤ 122
  · rw [if_pos hl]
    simp only
    rw [if_pos (by omega)]
  · rw [if_neg hl]

/-- C6 (as amended): an unsigned field of a memory row holds what `ParseUint` returns: 0 for
the empty text and for a text whose first byte that is no digit comes before any overflow
(syntax error), 2^64 - 1 for a text whose leading digits exceed 64 bits (range error), and
the number for a numeral that fits; `usedPercent` holds what `ParseFloat` returns, 0 on a
syntax error; every scanned row is appended to the result in order, and the handler answers
200 with one record per row when every `usedPercent` is finite. -/
theorem memRow_fields_follow_strconv (c : Config) (w : World) :
    parseUint [] = (0, some NumError.errSyntax) ∧
    (∀ pre ch rest, (∀ b ∈ pre, isDigitByte b = true) → decimalValue pre < 2 ^ 64 →
      isDigitByte ch = false → parseUint (pre ++ ch :: rest) = (0, some NumError.errSyntax)) ∧
    (∀ pre rest, (∀ b ∈ pre, isDigitByte b = true) → 2 ^ 64 ≤ decimalValue pre →
      parseUint (pre ++ rest) = (2 ^ 64 - 1, some NumError.errRange)) ∧
    (∀ ds, ds ≠ [] → (∀ b ∈ ds, isDigitByte b = true) → decimalValue ds < 2 ^ 64 →
      parseUint ds = (decimalValue ds, none)) ∧
    (∀ r : MemColumns,
      (r.decode w).Total = (parseUint r.total).1 ∧
      (r.decode w).Available = (parseUint r.available).1 ∧
      (r.decode w).Used = (parseUint r.used).1 ∧
      (r.decode w).Free = (parseUint r.free).1 ∧
      (w.parseFloat r.usedPercent = FloatParse.errSyntax →
        (r.decode w).UsedPercent = F64.fin 0) ∧
      (∀ v, w.parseFloat r.usedPercent = FloatParse.ok v → (r.decode w).UsedPercent = v)) ∧
    (∀ (rows : List MemColumns) (usages : List MemUsage) (effects : List Effect),
      (memRows c w (rows.map MemColumns.scanned) usages effects).1 =
        Except.ok (usages ++ rows.map (MemColumns.decode w))) ∧
    (∀ (req : Request) (rows : List MemColumns),
      validateWindow (effectiveFrom req) (effectiveTo w req) = none →
      w.query
          (memQuery (sanitizeContainerID req.containerId) (effectiveFrom req)
            (effectiveTo w req)).1
          (memQuery (sanitizeContainerID req.containerId) (effectiveFrom req)
            (effectiveTo w req)).2 = Except.ok (rows.map MemColumns.scanned) →
      (∀ r ∈ rows, (r.decode w).UsedPercent.encodable = true) →
      (memoryHistoryHandler c w req).outcome =
        Outcome.json 200 (Body.memUsages (rows.map (MemColumns.decode w)))) := by
  refine ⟨by decide, (fun pre ch rest hd hv hch => parseUint_bad_byte pre rest ch hd hv hch), parseUint_out_of_range,
    parseUint_of_digits, fun r => ⟨rfl, rfl, rfl, rfl, ?_, ?_⟩, memRows_scanned c w, ?_⟩
  · intro h
    simp [MemColumns.decode, decodeMemRow, h, FloatParse.value]
  · intro v h
    simp [MemColumns.decode, decodeMemRow, h, FloatParse.value]
  intro req rows hv hq henc
  have hrows := memRows_scanned c w rows []
  simp only [memoryHistoryHandler, hv, hq]
  generalize hm : memRows c w (rows.map MemColumns.scanned) [] _ = res
  have h1 := hrows (debugLog c "[DEBUG] Container memory history request" ++
      debugLog c "[DEBUG] Container memory query" ++
      [Effect.databaseQuery
        (memQuery (sanitizeContainerID req.containerId) (effectiveFrom req)
          (effectiveTo w req)).1
        (memQuery (sanitizeContainerID req.containerId) (effectiveFrom req)
          (effectiveTo w req)).2])
  rw [hm] at h1
  obtain ⟨r1, r2⟩ := res
  simp only at h1
  subst h1
  have he : (Body.memUsages (rows.map (MemColumns.decode w))).encodable = true := by
    simp only [Body.encodable, List.all_eq_true, List.mem_map]
    rintro u ⟨r, hr, rfl⟩
    exact henc r hr
  simp [ctxJSON, he]

/-! ## `time.Parse` -/

theorem skip_one (v r : GoString) (p : Nat) (h : skip v [p] = some r) : v = p :: r := by
  cases v with
  | nil => simp [skip] at h
  | cons a rest =>
    by_cases hap : a = p
    · simp [skip, hap] at h; rw [hap, h]
    · simp [skip, hap] at h

theorem getnum_fixed (s r : GoString) (n : Nat) (h : getnum s true = some (n, r)) :
    ∃ a b, s = a :: b :: r ∧ isDigitByte a = true ∧ isDigitByte b = true ∧
      n = decimalValue [a, b] := by
  match s, h with
  | [], h => simp [getnum, isDigit] at h
  | [a], h => simp [getnum, isDigit] at h
  | a :: b :: rest, h =>
    simp only [getnum, isDigit, List.get?_cons_zero, List.get?_cons_succ] at h
    by_cases ha : isDigitByte a = true <;> by_cases hb : isDigitByte b = true <;>
      simp [ha, hb] at h
    exact ⟨a, b, by rw [h.2], ha, hb, by simp [decimalValue, decimalFrom, ← h.1]⟩

theorem getnum_free (s r : GoString) (n : Nat) (h : getnum s false = some (n, r)) :
    ∃ hh, s = hh ++ r ∧ (hh.length = 1 ∨ hh.length = 2) ∧
      (∀ b ∈ hh, isDigitByte b = true) ∧ n = decimalValue hh := by
  match s, h with
  | [], h => simp [getnum, isDigit] at h
  | [a], h =>
    simp only [getnum, isDigit, List.get?_cons_zero] at h
    by_cases ha : isDigitByte a = true <;> simp [ha] at h
    exact ⟨[a], by simp [← h.2], Or.inl rfl, by simpa using ha,
      by simp [decimalValue, decimalFrom, ← h.1]⟩
  | a :: b :: rest, h =>
    simp only [getnum, isDigit, List.get?_cons_zero, List.get?_cons_succ] at h
    by_cases ha : isDigitByte a = true <;> by_cases hb : isDigitByte b = true <;>
      simp [ha, hb] at h
    · exact ⟨[a, b], by simp [← h.2], Or.inr rfl, by simp [ha, hb],
        by simp [decimalValue, decimalFrom, ← h.1]⟩
    · exact ⟨[a], by simp [← h.2], Or.inl rfl, by simpa using ha,
        by simp [decimalValue, decimalFrom, ← h.1]⟩

theorem leadingInt_all_digits (s : GoString) (x q : Nat) (h : leadingInt x s = some (q, [])) :
    (∀ b ∈ s, isDigitByte b = true) ∧ q = decimalFrom x s := by
  induction s generalizing x with
  | nil =>
    simp only [leadingInt, Option.some.injEq, Prod.mk.injEq, and_true] at h
    exact ⟨by simp, by rw [← h]; rfl⟩
  | cons c rest ih =>
    unfold leadingInt at h
    split_ifs at h with h1 h2 h3
    · simp at h
    · have hc : x * 10 + c - 48 = x * 10 + (c - 48) := by omega
      rw [hc] at h
      obtain ⟨hall, hq⟩ := ih _ h
      refine ⟨?_, hq⟩
      intro b hb
      rcases List.mem_cons.mp hb with rfl | hb
      · simp only [isDigitByte, Bool.and_eq_true, decide_eq_true_eq]; omega
      · exact hall b hb

theorem atoi_all_digits (s : GoString) (y : Int) (hd : isDigit s 0 = true)
    (h : atoi s = some y) : (∀ b ∈ s, isDigitByte b = true) ∧ y = (decimalValue s : Nat) := by
  cases s with
  | nil => simp [isDigit] at hd
  | cons a rest =>
    have ha : isDigitByte a = true := by simpa [isDigit] using hd
    have ha' : 48 ≤ a ∧ a ≤ 57 := by
      simpa [isDigitByte] using ha
    have hs : ¬ (a = 45 ∨ a = 43) := by omega
    simp only [atoi, List.getD_cons_zero, beq_iff_eq, Bool.or_eq_true, decide_eq_true_eq,
      Bool.and_eq_true, Bool.decide_or, Bool.decide_and, hs, and_false, false_and,
      decide_False, Bool.false_and, Bool.and_false, if_false, Bool.false_eq_true] at h
    split at h
    · rename_i q hl
      obtain ⟨hall, hq⟩ := leadingInt_all_digits _ _ _ hl
      simp only [Option.some.injEq] at h
      exact ⟨hall, by rw [← h, hq]; rfl⟩
    · simp at h

theorem parseLongYear_form (s r : GoString) (y : Int) (h : parseLongYear s = some (y, r)) :
    ∃ a b c d, s = a :: b :: c :: d :: r ∧
      (∀ x ∈ [a, b, c, d], isDigitByte x = true) ∧ y = (decimalValue [a, b, c, d] : Nat) := by
  unfold parseLongYear at h
  split_ifs at h with hc
  match s, hc, h with
  | a :: b :: c :: d :: rest, hc, h =>
    have hd : isDigit (a :: b :: c :: d :: rest) 0 = true := by
      by_contra hne
      exact hc (Or.inr (by simpa using hne))
    split at h
    · simp at h
    · rename_i v hat
      simp only [List.drop_succ_cons, List.drop_zero, Option.some.injEq,
        Prod.mk.injEq] at h
      have hall := atoi_all_digits _ v (by simpa [isDigit] using hd) hat
      refine ⟨a, b, c, d, by rw [h.2], ?_, ?_⟩
      · intro x hx
        exact hall.1 x (by simpa using hx)
      · rw [← h.1, hall.2]
        rfl
  | [], hc, _ => exact absurd (Or.inl (by simp)) hc
  | [_], hc, _ => exact absurd (Or.inl (by simp)) hc
  | [_, _], hc, _ => exact absurd (Or.inl (by simp)) hc
  | [_, _, _], hc, _ => exact absurd (Or.inl (by simp)) hc

theorem drop_takeWhile_length (p : Nat → Bool) (l : List Nat) :
    List.drop (l.takeWhile p).length l = l.dropWhile p := by
  induction l with
  | nil => rfl
  | cons a rest ih =>
    by_cases ha : p a = true
    · simp [List.takeWhile_cons, List.dropWhile_cons, ha, ih]
    · simp [List.takeWhile_cons, List.dropWhile_cons, ha]

theorem take_takeWhile (p : Nat → Bool) (l : List Nat) (k : Nat)
    (hk : k ≤ (l.takeWhile p).length) : l.take k = (l.takeWhile p).take k := by
  conv_lhs => rw [← List.takeWhile_append_dropWhile p l]
  exact List.take_append_of_le_length hk

theorem fraction_digits_read (sep d : Nat) (rest : GoString) :
    (List.take (if 2 + (rest.takeWhile isDigitByte).length > 10 then 10
          else 2 + (rest.takeWhile isDigitByte).length)
        (if 2 + (rest.takeWhile isDigitByte).length > 10 then List.take 10 (sep :: d :: rest)
          else sep :: d :: rest)).drop 1
      = (d :: rest.takeWhile isDigitByte).take 9 ∧
    10 - (if 2 + (rest.takeWhile isDigitByte).length > 10 then 10
          else 2 + (rest.takeWhile isDigitByte).length)
      = 9 - ((d :: rest.takeWhile isDigitByte).take 9).length := by
  generalize htw : rest.takeWhile isDigitByte = tw
  by_cases hn : 2 + tw.length > 10
  · have h8 : 8 ≤ (rest.takeWhile isDigitByte).length := by rw [htw]; omega
    have ht := take_takeWhile isDigitByte rest 8 h8
    rw [htw] at ht
    rw [if_pos hn, if_pos hn]
    refine ⟨?_, ?_⟩
    · simp only [List.take_take, Nat.min_self, List.take_succ_cons, List.drop_succ_cons,
        List.drop_zero, ht]
    · simp only [List.take_succ_cons, List.length_cons, List.length_take]
      omega
  · have hl : (rest.takeWhile isDigitByte).length ≤ (rest.takeWhile isDigitByte).length :=
      Nat.le_refl _
    have ht := take_takeWhile isDigitByte rest _ hl
    rw [List.take_length, htw] at ht
    have e : 2 + tw.length = tw.length + 1 + 1 := by omega
    have h9 : (d :: tw).length ≤ 9 := by simp only [List.length_cons]; omega
    rw [if_neg hn, if_neg hn, List.take_of_length_le h9]
    refine ⟨?_, ?_⟩
    · rw [e]
      simp only [List.take_succ_cons, List.drop_succ_cons, List.drop_zero, ht]
    · simp only [List.length_cons]
      omega

/-- The digits read by `parseNanoseconds` are the first nine of the fraction, scaled to
nanoseconds. -/
theorem parseNanoseconds_value (sep d : Nat) (rest : GoString) (v : Nat)
    (hd : isDigitByte d = true)
    (h : parseNanoseconds (sep :: d :: rest)
      (2 + (rest.takeWhile isDigitByte).length) = some v) :
    v = fractionNanos (sep :: d :: rest.takeWhile isDigitByte) := by
  unfold parseNanoseconds at h
  by_cases hsep : (!commaOrPeriod ((sep :: d :: rest).getD 0 0)) = true
  · rw [if_pos hsep] at h
    exact absurd h (by simp)
  rw [if_neg hsep] at h
  simp only at h
  have hkey := fraction_digits_read sep d rest
  rw [hkey.1, hkey.2] at h
  split at h
  · simp at h
  · rename_i ns hat
    have hdig0 : isDigit ((d :: rest.takeWhile isDigitByte).take 9) 0 = true := by
      simpa [isDigit] using hd
    obtain ⟨-, hns⟩ := atoi_all_digits _ ns hdig0 hat
    by_cases hneg : ns < 0
    · rw [if_pos hneg] at h
      exact absurd h (by simp)
    · rw [if_neg hneg] at h
      simp only [Option.some.injEq] at h
      rw [← h, hns]
      simp [fractionNanos]

theorem parseFraction_form (s r : GoString) (ns : Nat) (h : parseFraction s = some (ns, r)) :
    ∃ frac, s = frac ++ r ∧ ns = fractionNanos frac ∧
      (frac = [] ∨ ∃ sep ds, frac = sep :: ds ∧ (sep = 46 ∨ sep = 44) ∧ ds ≠ [] ∧
        ∀ b ∈ ds, isDigitByte b = true) := by
  unfold parseFraction at h
  split_ifs at h with hc
  · obtain ⟨hlen, hsep, hdig⟩ := hc
    match s, hlen, hsep, hdig, h with
    | sep :: d :: rest, _, hsep, hdig, h =>
      simp only at h
      split at h
      · simp at h
      · rename_i v hp
        simp only [Option.some.injEq, Prod.mk.injEq] at h
        have hsep' : sep = 46 ∨ sep = 44 := by
          simpa [commaOrPeriod] using hsep
        have hd : isDigitByte d = true := by simpa [isDigit] using hdig
        have hv := parseNanoseconds_value sep d rest v hd
          (by simpa only [List.drop_succ_cons, List.drop_zero] using hp)
        refine ⟨sep :: d :: rest.takeWhile isDigitByte, ?_, by rw [← h.1, hv], Or.inr
          ⟨sep, d :: rest.takeWhile isDigitByte, rfl, hsep', by simp, ?_⟩⟩
        · rw [← h.2]
          simp only [List.drop_succ_cons, List.drop_zero, List.cons_append, List.cons.injEq,
            true_and]
          have : 2 + (rest.takeWhile isDigitByte).length =
              (rest.takeWhile isDigitByte).length + 1 + 1 := by omega
          rw [this, List.drop_succ_cons, List.drop_succ_cons]
          rw [drop_takeWhile_length, List.takeWhile_append_dropWhile]
        · intro b hb
          rcases List.mem_cons.mp hb with rfl | hb
          · exact hd
          · exact (List.mem_takeWhile_imp hb)
    | [], hlen, _, _, _ => simp at hlen
    | [_], hlen, _, _, _ => simp at hlen
  · simp only [Option.some.injEq, Prod.mk.injEq] at h
    exact ⟨[], by simp [h.2], by rw [← h.1]; rfl, Or.inl rfl⟩

/-- C4 (as amended): a string accepted by `time.Parse` with the layout
`2006-01-02T15:04:05Z` has the form `YYYY-MM-DDTH[H]:MM:SS[fraction]Z`: four digits, `-`,
two digits, `-`, two digits, `T`, one or two digits, `:`, two digits, `:`, two digits, then
either nothing or a period or comma followed by one or more digits, then `Z` and nothing
else; the time returned holds the decimal values of these digit groups, with the month in
1..12, the day in 1..days of that month, the hour below 24, minute and second below 60. -/
theorem timeParse_accepted_form (value : GoString) (t : GoTime)
    (h : timeParse value = some t) :
    ∃ (y1 y2 y3 y4 m1 m2 d1 d2 n1 n2 s1 s2 : Nat) (hh frac : GoString),
      value = [y1, y2, y3, y4, 45, m1, m2, 45, d1, d2, 84] ++ hh
        ++ [58, n1, n2, 58, s1, s2] ++ frac ++ [90] ∧
      (∀ b ∈ [y1, y2, y3, y4, m1, m2, d1, d2, n1, n2, s1, s2], isDigitByte b = true) ∧
      (hh.length = 1 ∨ hh.length = 2) ∧ (∀ b ∈ hh, isDigitByte b = true) ∧
      (frac = [] ∨ ∃ sep ds, frac = sep :: ds ∧ (sep = 46 ∨ sep = 44) ∧ ds ≠ [] ∧
        ∀ b ∈ ds, isDigitByte b = true) ∧
      t = { year := (decimalValue [y1, y2, y3, y4] : Nat)
            month := decimalValue [m1, m2]
            day := decimalValue [d1, d2]
            hour := decimalValue hh
            min := decimalValue [n1, n2]
            sec := decimalValue [s1, s2]
            nsec := fractionNanos frac } ∧
      1 ≤ decimalValue [m1, m2] ∧ decimalValue [m1, m2] ≤ 12 ∧
      1 ≤ decimalValue [d1, d2] ∧
      decimalValue [d1, d2] ≤
        daysIn (decimalValue [m1, m2]) (decimalValue [y1, y2, y3, y4] : Nat) ∧
      decimalValue hh < 24 ∧ decimalValue [n1, n2] < 60 ∧ decimalValue [s1, s2] < 60 := by
  unfold timeParse at h
  split at h
  · exact absurd h (by simp)
  rename_i year v1 hyear
  split at h
  · exact absurd h (by simp)
  rename_i v2 hs1
  split at h
  · exact absurd h (by simp)
  rename_i month v3 hmonth
  split at h
  · exact absurd h (by simp)
  rename_i hmr
  split at h
  · exact absurd h (by simp)
  rename_i v4 hs2
  split at h
  · exact absurd h (by simp)
  rename_i day v5 hday
  split at h
  · exact absurd h (by simp)
  rename_i v6 hs3
  split at h
  · exact absurd h (by simp)
  rename_i hour v7 hhour
  split at h
  · exact absurd h (by simp)
  rename_i hhr
  split at h
  · exact absurd h (by simp)
  rename_i v8 hs4
  split at h
  · exact absurd h (by simp)
  rename_i min v9 hmin
  split at h
  · exact absurd h (by simp)
  rename_i hnr
  split at h
  · exact absurd h (by simp)
  rename_i v10 hs5
  split at h
  · exact absurd h (by simp)
  rename_i sec v11 hsec
  split at h
  · exact absurd h (by simp)
  rename_i hsr
  split at h
  · exact absurd h (by simp)
  rename_i nsec v12 hfrac
  split at h
  · exact absurd h (by simp)
  rename_i v13 hs6
  split at h
  · exact absurd h (by simp)
  rename_i hend
  split at h
  · exact absurd h (by simp)
  rename_i hdr
  simp only [Option.some.injEq] at h
  subst h
  obtain ⟨y1, y2, y3, y4, rfl, hy, rfl⟩ := parseLongYear_form _ _ _ hyear
  have e1 := skip_one _ _ _ hs1
  obtain ⟨m1, m2, e2, hm1, hm2, rfl⟩ := getnum_fixed _ _ _ hmonth
  have e3 := skip_one _ _ _ hs2
  obtain ⟨d1, d2, e4, hd1, hd2, rfl⟩ := getnum_fixed _ _ _ hday
  have e5 := skip_one _ _ _ hs3
  obtain ⟨hh, e6, hhl, hhd, rfl⟩ := getnum_free _ _ _ hhour
  have e7 := skip_one _ _ _ hs4
  obtain ⟨n1, n2, e8, hn1, hn2, rfl⟩ := getnum_fixed _ _ _ hmin
  have e9 := skip_one _ _ _ hs5
  obtain ⟨s1, s2, e10, hs1', hs2', rfl⟩ := getnum_fixed _ _ _ hsec
  obtain ⟨frac, e11, rfl, hfr⟩ := parseFraction_form _ _ _ hfrac
  have e12 := skip_one _ _ _ hs6
  have e13 : v13 = [] := not_not.mp hend
  refine ⟨y1, y2, y3, y4, m1, m2, d1, d2, n1, n2, s1, s2, hh, frac, ?_, ?_, hhl, hhd, hfr,
    rfl, ?_⟩
  · rw [e1, e2, e3, e4, e5, e6, e7, e8, e9, e10, e11, e12, e13]
    simp
  · intro b hb
    simp only [List.mem_cons, List.mem_singleton, List.not_mem_nil, or_false] at hb
    rcases hb with rfl | rfl | rfl | rfl | rfl | rfl | rfl | rfl | rfl | rfl | rfl | rfl
    · exact hy _ (by simp)
    · exact hy _ (by simp)
    · exact hy _ (by simp)
    · exact hy _ (by simp)
    all_goals assumption
  · omega

/-- The amended C4 at `2024-01-02T03:04:05Z`. -/
theorem timeParse_accepted_form_witness :
    timeParse (ascii "2024-01-02T03:04:05Z") = some ⟨2024, 1, 2, 3, 4, 5, 0⟩ ∧
    ∃ (y1 y2 y3 y4 m1 m2 d1 d2 n1 n2 s1 s2 : Nat) (hh frac : GoString),
      ascii "2024-01-02T03:04:05Z" = [y1, y2, y3, y4, 45, m1, m2, 45, d1, d2, 84] ++ hh
        ++ [58, n1, n2, 58, s1, s2] ++ frac ++ [90] ∧
      (∀ b ∈ [y1, y2, y3, y4, m1, m2, d1, d2, n1, n2, s1, s2], isDigitByte b = true) ∧
      (hh.length = 1 ∨ hh.length = 2) ∧ (∀ b ∈ hh, isDigitByte b = true) ∧
      (frac = [] ∨ ∃ sep ds, frac = sep :: ds ∧ (sep = 46 ∨ sep = 44) ∧ ds ≠ [] ∧
        ∀ b ∈ ds, isDigitByte b = true) ∧
      (⟨2024, 1, 2, 3, 4, 5, 0⟩ : GoTime) =
          { year := (decimalValue [y1, y2, y3, y4] : Nat)
            month := decimalValue [m1, m2]
            day := decimalValue [d1, d2]
            hour := decimalValue hh
            min := decimalValue [n1, n2]
            sec := decimalValue [s1, s2]
            nsec := fractionNanos frac } ∧
      1 ≤ decimalValue [m1, m2] ∧ decimalValue [m1, m2] ≤ 12 ∧
      1 ≤ decimalValue [d1, d2] ∧
      decimalValue [d1, d2] ≤
        daysIn (decimalValue [m1, m2]) (decimalValue [y1, y2, y3, y4] : Nat) ∧
      decimalValue hh < 24 ∧ decimalValue [n1, n2] < 60 ∧ decimalValue [s1, s2] < 60 :=
  ⟨by decide, timeParse_accepted_form (ascii "2024-01-02T03:04:05Z") ⟨2024, 1, 2, 3, 4, 5, 0⟩
    (by decide)⟩

/-- C4 (as stated) fails: `2024-01-02T03:04:05.123Z` has a fractional second and is accepted,
the fraction being read as 123 ms; an hour of one digit is accepted as well.  A missing `Z`,
a space for the `T` and a month 13 are rejected. -/
theorem timeParse_accepts_fractional_seconds :
    timeParse (ascii "2024-01-02T03:04:05.123Z") = some ⟨2024, 1, 2, 3, 4, 5, 123000000⟩ ∧
    timeParse (ascii "2024-01-02T03:04:05,5Z") = some ⟨2024, 1, 2, 3, 4, 5, 500000000⟩ ∧
    timeParse (ascii "2024-01-02T3:04:05Z") = some ⟨2024, 1, 2, 3, 4, 5, 0⟩ ∧
    timeParse (ascii "2024-01-02T03:04:05") = none ∧
    timeParse (ascii "2024-01-02 03:04:05Z") = none ∧
    timeParse (ascii "2024-13-02T03:04:05Z") = none := by
  decide

end Sentinel
